import Mathlib

/-!
Verification of the kite legal-citation toolkit (Python) against its
natural-language specification, via a shallow embedding in Lean 4.

Each Python module under verification is translated here definition by
definition:

* `kite/utils/citation_network.py`  — `CitationNetworkAnalyzer`
* `kite/utils/deduplication.py`     — `CaseDeduplicator`, hashing, similarity
* `kite/utils/citation_extractor.py`— `CitationExtractor`
* `archive/v2-python/kite/utils/citation_patterns.py` — pattern registry
* `archive/v2-python/kite/utils/validation_pipeline.py` — `ValidationPipeline`

Conventions of the embedding:

* Python `dict` / `collections.defaultdict` values are association lists
  `List (String × α)` in insertion order.  `dict.get(k, default)` never
  inserts; `defaultdict.__getitem__` inserts a default entry when the key is
  absent.  Both are modelled by separate primitives below.
* Python `set` is a duplicate-free `List` in some insertion order; the claims
  proved below only depend on membership and cardinality.
* Python floats are modelled by exact rationals (`ℚ`) or by explicit
  numerator/denominator pairs of naturals where kernel evaluation is needed.
* Strings are ASCII in all scenarios of interest; `str.lower()` is modelled
  by `Char.toLower`, `str.split()` by splitting on the ASCII whitespace
  characters recognised by Python.
-/

namespace Kite

/-- Python whitespace characters recognised by `str.split()` / `str.strip()`
(ASCII subset). -/
def isPySpace (c : Char) : Bool :=
  c = ' ' || c = '\t' || c = '\n' || c = '\x0d' || c = '\x0b' || c = '\x0c'

/-! ## Python dict primitives -/

/-- First binding of key `k` in an association-list dict (`k in d` lookup). -/
def pyFind? {α : Type} (d : List (String × α)) (k : String) : Option α :=
  match d.find? (fun kv => kv.1 = k) with
  | some kv => some kv.2
  | none => none

/-- Source `d.get(k, set())` on a dict of sets: look up without inserting. -/
def pyGet (d : List (String × List String)) (k : String) : List String :=
  (pyFind? d k).getD []

/-- Source `d[k] = v` on a plain dict: overwrite the first binding of `k`, or append
a new binding at the end (Python dicts keep insertion order). -/
def pySetKey {α : Type} : List (String × α) → String → α → List (String × α)
  | [], k, v => [(k, v)]
  | kv :: rest, k, v => if kv.1 = k then (k, v) :: rest else kv :: pySetKey rest k v

/-- Source `defaultdict(set).__getitem__`: return the entry for `k`, inserting an
empty-set entry first when `k` is absent. -/
def pyDefaultGet (d : List (String × List String)) (k : String) :
    List String × List (String × List String) :=
  match pyFind? d k with
  | some v => (v, d)
  | none => ([], d ++ [(k, [])])

/-- Python `set.add`. -/
def setAdd (s : List String) (x : String) : List String :=
  if x ∈ s then s else s ++ [x]

/-- Python `set.update(iterable)`. -/
def setUpdate (s : List String) (xs : List String) : List String :=
  xs.foldl setAdd s

/-! ## `kite/utils/citation_network.py` -/

/-- Source `NetworkMetrics` dataclass (scores are floats in the source; exact
rationals here). -/
structure NetworkMetrics where
  case_id : String
  in_degree : Nat
  out_degree : Nat
  authority_score : ℚ
  hub_score : ℚ
  deriving Repr, DecidableEq

/-- The mutable state of `CitationNetworkAnalyzer`: the citing→cited map, the
cited→citing map and per-case metadata (metadata dicts are modelled as
string-to-string association lists). -/
structure CitationNetworkAnalyzer where
  graph : List (String × List String)
  reverse_graph : List (String × List String)
  case_metadata : List (String × List (String × String))
  deriving Repr, DecidableEq

/-- A freshly constructed analyzer (`__init__`). -/
def CitationNetworkAnalyzer.empty : CitationNetworkAnalyzer := ⟨[], [], []⟩

/-- Source `CitationNetworkAnalyzer.add_case`.  `self.graph[case_id].update(...)`
goes through `defaultdict.__getitem__` (inserting an empty entry first), then
the reverse map gains `case_id` under every cited case; metadata is stored
only when truthy (a non-empty dict). -/
def add_case (st : CitationNetworkAnalyzer) (case_id : String)
    (cited_cases : List String) (metadata : Option (List (String × String))) :
    CitationNetworkAnalyzer :=
  let fw := pyDefaultGet st.graph case_id
  let g := pySetKey fw.2 case_id (setUpdate fw.1 cited_cases)
  let rg := cited_cases.foldl (fun rg cited =>
      let cur := pyDefaultGet rg cited
      pySetKey cur.2 cited (setAdd cur.1 case_id)) st.reverse_graph
  let md := match metadata with
    | some m => if m = [] then st.case_metadata else pySetKey st.case_metadata case_id m
    | none => st.case_metadata
  ⟨g, rg, md⟩

/-- One recorded `add_case` call. -/
structure AddCaseOp where
  case_id : String
  cited_cases : List String
  metadata : Option (List (String × String))

/-- Replay a sequence of `add_case` calls from a fresh analyzer. -/
def runOps (ops : List AddCaseOp) : CitationNetworkAnalyzer :=
  ops.foldl (fun st op => add_case st op.case_id op.cited_cases op.metadata)
    CitationNetworkAnalyzer.empty

/-- The forward and reverse adjacency maps mirror each other edge for edge. -/
def mirrorConsistent (st : CitationNetworkAnalyzer) : Prop :=
  ∀ c d, d ∈ pyGet st.graph c ↔ c ∈ pyGet st.reverse_graph d

/-- Largest element of a list of naturals (`max(...)` over a non-empty
Python iterable agrees with this on non-empty lists). -/
def maxNat (l : List Nat) : Nat := l.foldl max 0

/-- Source `CitationNetworkAnalyzer._calculate_authority_score`. -/
def calculate_authority_score (st : CitationNetworkAnalyzer) (case_id : String) : ℚ :=
  let citation_count := (pyGet st.reverse_graph case_id).length
  if citation_count = 0 then 0
  else
    let max_citations :=
      if st.reverse_graph = [] then 1
      else maxNat (st.reverse_graph.map (fun kv => kv.2.length))
    min ((citation_count : ℚ) / (max_citations : ℚ)) 1

/-- Source `CitationNetworkAnalyzer._calculate_hub_score`. -/
def calculate_hub_score (st : CitationNetworkAnalyzer) (case_id : String) : ℚ :=
  let cited_cases := pyGet st.graph case_id
  if cited_cases = [] then 0
  else
    let total_authority :=
      (cited_cases.map (fun cited => (pyGet st.reverse_graph cited).length)).sum
    let max_possible :=
      if st.reverse_graph = [] then 1
      else cited_cases.length * maxNat (st.reverse_graph.map (fun kv => kv.2.length))
    min (if max_possible > 0 then (total_authority : ℚ) / (max_possible : ℚ) else 0) 1

/-- Source `CitationNetworkAnalyzer.get_metrics`.  Every dictionary access in the
source is a non-inserting `dict.get(k, set())`. -/
def get_metrics (st : CitationNetworkAnalyzer) (case_id : String) : NetworkMetrics :=
  { case_id := case_id
    in_degree := (pyGet st.reverse_graph case_id).length
    out_degree := (pyGet st.graph case_id).length
    authority_score := calculate_authority_score st case_id
    hub_score := calculate_hub_score st case_id }

/-- The recursive `dfs` helper inside `find_citation_chains`.  The source
counts `depth` upward and stops when `depth > max_depth`; here `fuel`
counts the remaining allowed hops downward (`fuel = max_depth + 1 - depth`),
which is the same bound and keeps the recursion structural. -/
def dfs (g : List (String × List String)) (target : String) :
    Nat → String → List String → List (List String)
  | 0, _, _ => []
  | fuel + 1, current, path =>
    if current = target then [path]
    else
      (pyGet g current).flatMap (fun cited =>
        if cited ∈ path then []
        else dfs g target fuel cited (path ++ [cited]))

/-- Source `CitationNetworkAnalyzer.find_citation_chains` (the initial call is
`dfs(start_case, end_case, [start_case], 1)`, i.e. fuel `max_depth`). -/
def find_citation_chains (st : CitationNetworkAnalyzer)
    (start_case end_case : String) (max_depth : Nat) : List (List String) :=
  dfs st.graph end_case max_depth start_case [start_case]

/-- Source `CitationNetworkAnalyzer.get_co_citation_network`.  The `Counter` is a
plain dict of counts built in iteration order. -/
def get_co_citation_network (st : CitationNetworkAnalyzer) (case_id : String) :
    List (String × Nat) :=
  let citing_cases := pyGet st.reverse_graph case_id
  citing_cases.foldl (fun co citing_case =>
    let cited_by_this := pyGet st.graph citing_case
    cited_by_this.foldl (fun co co_cited =>
      if co_cited ≠ case_id then
        pySetKey co co_cited (((pyFind? co co_cited).getD 0) + 1)
      else co) co) []

/-- Union of the key sets of both adjacency maps
(`set(self.graph.keys()) | set(self.reverse_graph.keys())`). -/
def allCases (st : CitationNetworkAnalyzer) : List String :=
  setUpdate (setUpdate [] (st.graph.map (·.1))) (st.reverse_graph.map (·.1))

/-- Source `CitationNetworkAnalyzer.find_influential_cases`: rank every known case
by `(authority + hub) / 2` descending.  The sort is Python's stable
`list.sort(key=..., reverse=True)`, modelled by a stable merge sort on the
non-strict ≥ order over scores. -/
def find_influential_cases (st : CitationNetworkAnalyzer) (limit : Nat) :
    List (String × NetworkMetrics) :=
  let case_metrics := (allCases st).map (fun case_id =>
    let metrics := get_metrics st case_id
    (case_id, metrics, (metrics.authority_score + metrics.hub_score) / 2))
  let sorted := case_metrics.mergeSort (fun x y => x.2.2 ≥ y.2.2)
  (sorted.take limit).map (fun x => (x.1, x.2.1))

/-- The result dictionary of `CitationNetworkAnalyzer.get_network_stats`. -/
structure NetworkStats where
  total_cases : Nat
  total_citations : Nat
  avg_citations_per_case : ℚ
  most_cited_case : String
  most_cited_count : Nat
  deriving Repr, DecidableEq

/-- Source `max(..., key=lambda x: x[1], default=("none", 0))` over the reverse map:
the default only applies to an empty map; otherwise the first item with
maximal count wins, in iteration order. -/
def mostCited (rg : List (String × List String)) : String × Nat :=
  match rg with
  | [] => ("none", 0)
  | kv :: rest =>
    rest.foldl (fun best kv =>
      if kv.2.length > best.2 then (kv.1, kv.2.length) else best)
      (kv.1, kv.2.length)

/-- Source `CitationNetworkAnalyzer.get_network_stats`. -/
def get_network_stats (st : CitationNetworkAnalyzer) : NetworkStats :=
  let all := allCases st
  let total_citations := (st.graph.map (fun kv => kv.2.length)).sum
  { total_cases := all.length
    total_citations := total_citations
    avg_citations_per_case :=
      if all = [] then 0 else (total_citations : ℚ) / (all.length : ℚ)
    most_cited_case := (mostCited st.reverse_graph).1
    most_cited_count := (mostCited st.reverse_graph).2 }

end Kite

namespace Kite

/-! ## Dictionary and set lemmas -/

theorem pyFind?_nil {α : Type} (k : String) :
    pyFind? ([] : List (String × α)) k = none := by
  simp [pyFind?]

theorem pyFind?_cons {α : Type} (kv : String × α) (rest : List (String × α))
    (k : String) :
    pyFind? (kv :: rest) k = if kv.1 = k then some kv.2 else pyFind? rest k := by
  by_cases h : kv.1 = k <;> simp [pyFind?, List.find?_cons, h]

theorem pyFind?_append {α : Type} (d tl : List (String × α)) (k : String) :
    pyFind? (d ++ tl) k =
      match pyFind? d k with
      | some v => some v
      | none => pyFind? tl k := by
  induction d with
  | nil => simp [pyFind?_nil]
  | cons kv rest ih =>
    by_cases h : kv.1 = k <;> simp [List.cons_append, pyFind?_cons, h, ih]

theorem pyFind?_setKey {α : Type} (d : List (String × α)) (k k' : String) (v : α) :
    pyFind? (pySetKey d k v) k' = if k' = k then some v else pyFind? d k' := by
  induction d with
  | nil =>
    by_cases h : k' = k
    · subst h; simp [pySetKey, pyFind?_cons]
    · have h' : ¬ (k = k') := fun he => h he.symm
      simp [pySetKey, pyFind?_cons, pyFind?_nil, h, h']
  | cons kv rest ih =>
    by_cases hk : kv.1 = k
    · by_cases h : k' = k
      · subst h
        simp [pySetKey, hk, pyFind?_cons]
      · have h' : ¬ (k = k') := fun he => h he.symm
        have hkv : ¬ (kv.1 = k') := by rw [hk]; exact h'
        simp [pySetKey, hk, pyFind?_cons, h, h', hkv]
    · simp only [pySetKey, hk, if_false, ite_false]
      rw [pyFind?_cons, pyFind?_cons, ih]
      by_cases hkv : kv.1 = k'
      · have h : ¬ (k' = k) := fun he => hk (by rw [hkv, he])
        simp [hkv, h]
      · simp [hkv]

theorem pyGet_setKey (d : List (String × List String)) (k k' : String)
    (v : List String) :
    pyGet (pySetKey d k v) k' = if k' = k then v else pyGet d k' := by
  by_cases h : k' = k <;> simp [pyGet, pyFind?_setKey, h]

theorem pyDefaultGet_fst (d : List (String × List String)) (k : String) :
    (pyDefaultGet d k).1 = pyGet d k := by
  unfold pyDefaultGet pyGet
  cases h : pyFind? d k <;> simp [h]

theorem pyGet_pyDefaultGet (d : List (String × List String)) (k k' : String) :
    pyGet (pyDefaultGet d k).2 k' = pyGet d k' := by
  unfold pyDefaultGet
  cases h : pyFind? d k with
  | some v => simp
  | none =>
    simp only
    unfold pyGet
    rw [pyFind?_append]
    by_cases hk : k = k'
    · subst hk
      rw [h]
      simp [pyFind?_cons, pyFind?_nil]
    · cases hf : pyFind? d k' <;> simp [pyFind?_cons, pyFind?_nil, hk, hf]

theorem mem_setAdd (s : List String) (x y : String) :
    x ∈ setAdd s y ↔ x ∈ s ∨ x = y := by
  unfold setAdd
  by_cases h : y ∈ s
  · simp only [if_pos h]
    constructor
    · exact Or.inl
    · rintro (hx | hx)
      · exact hx
      · rw [hx]; exact h
  · simp [if_neg h]

theorem mem_setUpdate (s : List String) (xs : List String) (x : String) :
    x ∈ setUpdate s xs ↔ x ∈ s ∨ x ∈ xs := by
  induction xs generalizing s with
  | nil => simp [setUpdate]
  | cons y ys ih =>
    simp only [setUpdate, List.foldl_cons] at *
    rw [ih (setAdd s y), mem_setAdd]
    simp only [List.mem_cons]
    tauto

/-- Membership in the reverse map after the `for cited in cited_cases:` loop
of `add_case`. -/
theorem mem_revFold (cited : List String) (rg : List (String × List String))
    (cid c d : String) :
    c ∈ pyGet (cited.foldl (fun rg cited =>
        pySetKey (pyDefaultGet rg cited).2 cited
          (setAdd (pyDefaultGet rg cited).1 cid)) rg) d
      ↔ c ∈ pyGet rg d ∨ (c = cid ∧ d ∈ cited) := by
  induction cited generalizing rg with
  | nil => simp
  | cons x rest ih =>
    simp only [List.foldl_cons]
    rw [ih]
    have hstep : pyGet (pySetKey (pyDefaultGet rg x).2 x
        (setAdd (pyDefaultGet rg x).1 cid)) d
        = if d = x then setAdd (pyGet rg x) cid else pyGet rg d := by
      rw [pyGet_setKey, pyDefaultGet_fst]
      by_cases hdx : d = x
      · simp [hdx]
      · simp [hdx, pyGet_pyDefaultGet]
    rw [hstep]
    by_cases hdx : d = x
    · subst hdx
      rw [if_pos rfl, mem_setAdd]
      simp only [List.mem_cons]
      tauto
    · rw [if_neg hdx]
      simp only [List.mem_cons]
      constructor
      · rintro (hc | ⟨hcid, hmem⟩)
        · exact Or.inl hc
        · exact Or.inr ⟨hcid, Or.inr hmem⟩
      · rintro (hc | ⟨hcid, (hd | hmem)⟩)
        · exact Or.inl hc
        · exact absurd hd hdx
        · exact Or.inr ⟨hcid, hmem⟩

/-- Forward-map membership after one `add_case`. -/
theorem add_case_graph_mem (st : CitationNetworkAnalyzer) (cid : String)
    (cited : List String) (md : Option (List (String × String))) (c d : String) :
    d ∈ pyGet (add_case st cid cited md).graph c ↔
      d ∈ pyGet st.graph c ∨ (c = cid ∧ d ∈ cited) := by
  show d ∈ pyGet (pySetKey (pyDefaultGet st.graph cid).2 cid
      (setUpdate (pyDefaultGet st.graph cid).1 cited)) c ↔ _
  rw [pyGet_setKey, pyDefaultGet_fst]
  by_cases hc : c = cid
  · subst hc
    rw [if_pos rfl, mem_setUpdate]
    tauto
  · rw [if_neg hc, pyGet_pyDefaultGet]
    have : ¬ (c = cid ∧ d ∈ cited) := fun hx => hc hx.1
    tauto

/-- Reverse-map membership after one `add_case`. -/
theorem add_case_reverse_mem (st : CitationNetworkAnalyzer) (cid : String)
    (cited : List String) (md : Option (List (String × String))) (c d : String) :
    c ∈ pyGet (add_case st cid cited md).reverse_graph d ↔
      c ∈ pyGet st.reverse_graph d ∨ (c = cid ∧ d ∈ cited) := by
  exact mem_revFold cited st.reverse_graph cid c d

/-- A single `add_case` call preserves mirror consistency. -/
theorem add_case_mirror (st : CitationNetworkAnalyzer)
    (h : mirrorConsistent st) (cid : String) (cited : List String)
    (md : Option (List (String × String))) :
    mirrorConsistent (add_case st cid cited md) := by
  intro c d
  rw [add_case_graph_mem, add_case_reverse_mem, h c d]

theorem runOps_mirror_aux (ops : List AddCaseOp) (st : CitationNetworkAnalyzer)
    (h : mirrorConsistent st) :
    mirrorConsistent (ops.foldl
      (fun st op => add_case st op.case_id op.cited_cases op.metadata) st) := by
  induction ops generalizing st with
  | nil => exact h
  | cons op rest ih =>
    simp only [List.foldl_cons]
    exact ih _ (add_case_mirror st h op.case_id op.cited_cases op.metadata)

end Kite

namespace Kite

/-- C1: starting from an empty analyzer, any sequence of `add_case` calls
leaves the forward and reverse adjacency maps mirror-consistent: `d` is in
the forward entry of `c` exactly when `c` is in the reverse entry of `d`. -/
theorem add_case_mirror_consistency (ops : List AddCaseOp) :
    mirrorConsistent (runOps ops) := by
  apply runOps_mirror_aux
  intro c d
  simp [CitationNetworkAnalyzer.empty, pyGet, pyFind?_nil]

/-- Every chain produced by the bounded DFS from a duplicate-free path is
duplicate-free and adds at most `fuel` further nodes. -/
theorem dfs_sound (g : List (String × List String)) (target : String) :
    ∀ (fuel : Nat) (current : String) (path : List String), path.Nodup →
      ∀ p ∈ dfs g target fuel current path,
        p.Nodup ∧ p.length ≤ path.length + fuel := by
  intro fuel
  induction fuel with
  | zero =>
    intro current path hnd p hp
    simp [dfs] at hp
  | succ fuel ih =>
    intro current path hnd p hp
    rw [dfs] at hp
    by_cases hcur : current = target
    · rw [if_pos hcur] at hp
      simp only [List.mem_singleton] at hp
      subst hp
      exact ⟨hnd, by omega⟩
    · rw [if_neg hcur] at hp
      simp only [List.mem_flatMap] at hp
      obtain ⟨cited, _, hp⟩ := hp
      by_cases hc : cited ∈ path
      · simp [hc] at hp
      · rw [if_neg hc] at hp
        have hnd' : (path ++ [cited]).Nodup := by
          simp [List.nodup_append, hnd, hc]
        have hres := ih cited (path ++ [cited]) hnd' p hp
        refine ⟨hres.1, ?_⟩
        have := hres.2
        simp only [List.length_append, List.length_singleton] at this
        omega

/-- C3: for every graph state, endpoints and positive bound `k`, every path
returned by `find_citation_chains` has at most `k + 1` nodes and no repeated
node. -/
theorem find_citation_chains_simple_bounded (st : CitationNetworkAnalyzer)
    (A B : String) (k : Nat) (hk : 0 < k) :
    ∀ p ∈ find_citation_chains st A B k, p.length ≤ k + 1 ∧ p.Nodup := by
  intro p hp
  have hres := dfs_sound st.graph B k A [A] (by simp) p hp
  refine ⟨?_, hres.1⟩
  have := hres.2
  simp only [List.length_singleton] at this
  omega

/-- Witness for C3 on a concrete two-node graph with bound 2. -/
theorem find_citation_chains_simple_bounded_witness :
    0 < 2 ∧ ∀ p ∈ find_citation_chains (runOps [⟨"A", ["B"], none⟩]) "A" "B" 2,
      p.length ≤ 2 + 1 ∧ p.Nodup :=
  ⟨by decide, find_citation_chains_simple_bounded (runOps [⟨"A", ["B"], none⟩])
    "A" "B" 2 (by decide)⟩

/-- C7: a case id that is a key of neither adjacency map gets zero degrees
and zero scores from `get_metrics` (which, being a total function, raises no
error). -/
theorem get_metrics_unknown_case (st : CitationNetworkAnalyzer) (case_id : String)
    (hf : pyFind? st.graph case_id = none)
    (hr : pyFind? st.reverse_graph case_id = none) :
    get_metrics st case_id =
      { case_id := case_id, in_degree := 0, out_degree := 0,
        authority_score := 0, hub_score := 0 } := by
  have hg : pyGet st.graph case_id = [] := by simp [pyGet, hf]
  have hrg : pyGet st.reverse_graph case_id = [] := by simp [pyGet, hr]
  unfold get_metrics calculate_authority_score calculate_hub_score
  simp [hg, hrg]

/-- Witness for C7: the id `"Z"` is unknown to a graph holding only the edge
`"A" → "B"`. -/
theorem get_metrics_unknown_case_witness :
    pyFind? (runOps [⟨"A", ["B"], none⟩]).graph "Z" = none ∧
    pyFind? (runOps [⟨"A", ["B"], none⟩]).reverse_graph "Z" = none ∧
    get_metrics (runOps [⟨"A", ["B"], none⟩]) "Z" =
      { case_id := "Z", in_degree := 0, out_degree := 0,
        authority_score := 0, hub_score := 0 } :=
  ⟨by decide, by decide,
    get_metrics_unknown_case (runOps [⟨"A", ["B"], none⟩]) "Z"
      (by decide) (by decide)⟩

end Kite

namespace Kite

/-! ## State-threaded query operations (frame reasoning)

Every dictionary read in the query methods of `CitationNetworkAnalyzer` is
either `dict.get(key, default)` — which never inserts, even on a
`defaultdict` — or plain iteration (`.keys()` / `.values()` / `.items()`),
which never mutates.  To make that observable, the queries are repeated here
in a state-threading style: each `dict.get` access site goes through
`dictGetT`, and each function returns the analyzer state it finished with. -/

/-- Source `d.get(k, set())`: reads without inserting, so the dict comes back as it
was. -/
def dictGetT (d : List (String × List String)) (k : String) :
    List String × List (String × List String) := (pyGet d k, d)

/-- Source `_calculate_authority_score`, threading the dicts it touches. -/
def calculate_authority_scoreT (st : CitationNetworkAnalyzer) (case_id : String) :
    ℚ × CitationNetworkAnalyzer :=
  let a := dictGetT st.reverse_graph case_id
  let st1 : CitationNetworkAnalyzer := ⟨st.graph, a.2, st.case_metadata⟩
  if a.1.length = 0 then (0, st1)
  else
    let max_citations :=
      if st1.reverse_graph = [] then 1
      else maxNat (st1.reverse_graph.map (fun kv => kv.2.length))
    (min ((a.1.length : ℚ) / (max_citations : ℚ)) 1, st1)

/-- Source `_calculate_hub_score`, threading the dicts it touches (one
`reverse_graph.get` per cited case). -/
def calculate_hub_scoreT (st : CitationNetworkAnalyzer) (case_id : String) :
    ℚ × CitationNetworkAnalyzer :=
  let a := dictGetT st.graph case_id
  let st1 : CitationNetworkAnalyzer := ⟨a.2, st.reverse_graph, st.case_metadata⟩
  if a.1 = [] then (0, st1)
  else
    let reads := a.1.foldl (fun (acc : Nat × List (String × List String)) cited =>
        let b := dictGetT acc.2 cited
        (acc.1 + b.1.length, b.2)) (0, st1.reverse_graph)
    let st2 : CitationNetworkAnalyzer := ⟨st1.graph, reads.2, st1.case_metadata⟩
    let max_possible :=
      if st2.reverse_graph = [] then 1
      else a.1.length * maxNat (st2.reverse_graph.map (fun kv => kv.2.length))
    (min (if max_possible > 0 then ((reads.1 : ℚ) / (max_possible : ℚ)) else 0) 1,
      st2)

/-- Source `get_metrics`, threading the dicts it touches. -/
def get_metricsT (st : CitationNetworkAnalyzer) (case_id : String) :
    NetworkMetrics × CitationNetworkAnalyzer :=
  let a := dictGetT st.reverse_graph case_id
  let b := dictGetT st.graph case_id
  let st1 : CitationNetworkAnalyzer := ⟨b.2, a.2, st.case_metadata⟩
  let auth := calculate_authority_scoreT st1 case_id
  let hub := calculate_hub_scoreT auth.2 case_id
  ({ case_id := case_id, in_degree := a.1.length, out_degree := b.1.length,
     authority_score := auth.1, hub_score := hub.1 }, hub.2)

/-- The inner `dfs` of `find_citation_chains`, threading the forward map
through every `self.graph.get(current, set())` read. -/
def dfsT (target : String) :
    Nat → String → List String → List (String × List String) →
      List (List String) × List (String × List String)
  | 0, _, _, g => ([], g)
  | fuel + 1, current, path, g =>
    if current = target then ([path], g)
    else
      let a := dictGetT g current
      a.1.foldl (fun acc cited =>
        if cited ∈ path then acc
        else
          let r := dfsT target fuel cited (path ++ [cited]) acc.2
          (acc.1 ++ r.1, r.2)) ([], a.2)

/-- Source `find_citation_chains`, threading the forward map. -/
def find_citation_chainsT (st : CitationNetworkAnalyzer)
    (start_case end_case : String) (max_depth : Nat) :
    List (List String) × CitationNetworkAnalyzer :=
  let r := dfsT end_case max_depth start_case [start_case] st.graph
  (r.1, ⟨r.2, st.reverse_graph, st.case_metadata⟩)

/-- Source `get_co_citation_network`, threading both maps. -/
def get_co_citation_networkT (st : CitationNetworkAnalyzer) (case_id : String) :
    List (String × Nat) × CitationNetworkAnalyzer :=
  let a := dictGetT st.reverse_graph case_id
  let step := a.1.foldl
    (fun (acc : List (String × Nat) × List (String × List String)) citing_case =>
      let b := dictGetT acc.2 citing_case
      (b.1.foldl (fun co co_cited =>
        if co_cited ≠ case_id then
          pySetKey co co_cited (((pyFind? co co_cited).getD 0) + 1)
        else co) acc.1, b.2)) ([], st.graph)
  (step.1, ⟨step.2, a.2, st.case_metadata⟩)

/-- Source `find_influential_cases`, threading the state through each `get_metrics`
call. -/
def find_influential_casesT (st : CitationNetworkAnalyzer) (limit : Nat) :
    List (String × NetworkMetrics) × CitationNetworkAnalyzer :=
  let r := (allCases st).foldl
    (fun (acc : List (String × NetworkMetrics × ℚ) × CitationNetworkAnalyzer)
        case_id =>
      let m := get_metricsT acc.2 case_id
      (acc.1 ++ [(case_id, m.1, (m.1.authority_score + m.1.hub_score) / 2)],
        m.2)) ([], st)
  let sorted := r.1.mergeSort (fun x y => x.2.2 ≥ y.2.2)
  ((sorted.take limit).map (fun x => (x.1, x.2.1)), r.2)

/-- Source `get_network_stats` contains no keyed accesses at all — only whole-map
iteration, which never mutates — so its threaded form returns the state
verbatim. -/
def get_network_statsT (st : CitationNetworkAnalyzer) :
    NetworkStats × CitationNetworkAnalyzer :=
  (get_network_stats st, st)

theorem foldl_preserve_snd {α β γ : Type} (f : (β × γ) → α → β × γ)
    (hf : ∀ acc x, (f acc x).2 = acc.2) (l : List α) (init : β × γ) :
    (l.foldl f init).2 = init.2 := by
  induction l generalizing init with
  | nil => rfl
  | cons x xs ih => rw [List.foldl_cons, ih, hf]

theorem calculate_authority_scoreT_frame (st : CitationNetworkAnalyzer)
    (case_id : String) : (calculate_authority_scoreT st case_id).2 = st := by
  unfold calculate_authority_scoreT dictGetT
  by_cases h : (pyGet st.reverse_graph case_id).length = 0 <;> simp [h]

theorem calculate_hub_scoreT_frame (st : CitationNetworkAnalyzer)
    (case_id : String) : (calculate_hub_scoreT st case_id).2 = st := by
  unfold calculate_hub_scoreT dictGetT
  by_cases h : pyGet st.graph case_id = []
  · simp [h]
  · simp only [h, if_neg, ite_false]
    have hfold : ((pyGet st.graph case_id).foldl
        (fun (acc : Nat × List (String × List String)) cited =>
          (acc.1 + (pyGet acc.2 cited).length, acc.2)) (0, st.reverse_graph)).2
        = st.reverse_graph :=
      foldl_preserve_snd
        (fun (acc : Nat × List (String × List String)) cited =>
          (acc.1 + (pyGet acc.2 cited).length, acc.2))
        (fun _ _ => rfl) _ _
    simp [hfold]

theorem get_metricsT_frame (st : CitationNetworkAnalyzer) (case_id : String) :
    (get_metricsT st case_id).2 = st := by
  unfold get_metricsT dictGetT
  simp [calculate_authority_scoreT_frame, calculate_hub_scoreT_frame]

theorem dfsT_frame (target : String) (fuel : Nat) :
    ∀ (current : String) (path : List String) (g : List (String × List String)),
      (dfsT target fuel current path g).2 = g := by
  induction fuel with
  | zero => intro current path g; rfl
  | succ fuel ih =>
    intro current path g
    rw [dfsT]
    by_cases hc : current = target
    · simp [hc]
    · rw [if_neg hc]
      exact foldl_preserve_snd _
        (fun acc cited => by
          by_cases hm : cited ∈ path
          · simp [hm]
          · simp [hm, ih]) _ _

theorem find_citation_chainsT_frame (st : CitationNetworkAnalyzer)
    (start_case end_case : String) (max_depth : Nat) :
    (find_citation_chainsT st start_case end_case max_depth).2 = st := by
  unfold find_citation_chainsT
  simp [dfsT_frame]

theorem get_co_citation_networkT_frame (st : CitationNetworkAnalyzer)
    (case_id : String) : (get_co_citation_networkT st case_id).2 = st := by
  unfold get_co_citation_networkT dictGetT
  simp only
  have hfold := foldl_preserve_snd
    (fun (acc : List (String × Nat) × List (String × List String)) citing_case =>
      ((pyGet acc.2 citing_case).foldl (fun co co_cited =>
        if co_cited ≠ case_id then
          pySetKey co co_cited (((pyFind? co co_cited).getD 0) + 1)
        else co) acc.1, acc.2))
    (fun _ _ => rfl) (pyGet st.reverse_graph case_id) ([], st.graph)
  simp only at hfold
  rw [hfold]

theorem find_influential_casesT_frame (st : CitationNetworkAnalyzer)
    (limit : Nat) : (find_influential_casesT st limit).2 = st := by
  unfold find_influential_casesT
  simp only
  exact foldl_preserve_snd _
    (fun acc case_id => by simp [get_metricsT_frame]) _ _

/-- C9: the five query operations leave the forward map, the reverse map and
the case metadata exactly as they were, for every state and every argument
(including ids absent from the graph). -/
theorem network_queries_preserve_state (st : CitationNetworkAnalyzer)
    (case_id start_case end_case : String) (max_depth limit : Nat) :
    (get_metricsT st case_id).2 = st ∧
    (find_citation_chainsT st start_case end_case max_depth).2 = st ∧
    (get_co_citation_networkT st case_id).2 = st ∧
    (find_influential_casesT st limit).2 = st ∧
    (get_network_statsT st).2 = st :=
  ⟨get_metricsT_frame st case_id,
   find_citation_chainsT_frame st start_case end_case max_depth,
   get_co_citation_networkT_frame st case_id,
   find_influential_casesT_frame st limit,
   rfl⟩

end Kite

namespace Kite

/-! ## `kite/utils/deduplication.py` — text normalization and hashing -/

/-- Python `str.lower()` (ASCII-faithful). -/
def pyLower (s : List Char) : List Char := s.map Char.toLower

/-- The punctuation characters stripped by `normalize_case_name`. -/
def punctChars : List Char :=
  [',', '.', ';', ':', '"', '\'', '(', ')', '[', ']']

/-- Source `name.replace(char, '')`. -/
def removeChar (s : List Char) (c : Char) : List Char :=
  s.filter (fun x => x ≠ c)

/-- The `for char in [...]: name = name.replace(char, '')` loop. -/
def stripPunct (s : List Char) : List Char :=
  punctChars.foldl removeChar s

/-- Split at every Python-whitespace character, keeping empty fields; helper
for `str.split()`. -/
def fields : List Char → List (List Char)
  | [] => [[]]
  | c :: rest =>
    match fields rest with
    | [] => [[c]]
    | w :: ws => if isPySpace c then [] :: w :: ws else (c :: w) :: ws

/-- Python `str.split()` with no argument: whitespace runs separate words,
and leading/trailing whitespace yields no empty words. -/
def wordsOf (s : List Char) : List (List Char) :=
  (fields s).filter (fun w => w ≠ [])

/-- Python `' '.join(words)`. -/
def joinSpace (ws : List (List Char)) : List Char :=
  List.intercalate [' '] ws

/-- The legal-connective stopword list of `normalize_case_name`. -/
def stopwords : List (List Char) :=
  (["v", "vs", "versus", "et", "al", "and", "the", "in", "re"] :
    List String).map String.data

/-- Source `normalize_case_name`: lowercase, strip punctuation, collapse whitespace,
drop stopwords. -/
def normalize_case_name (case_name : String) : String :=
  let name := pyLower case_name.data
  let name := stripPunct name
  let name := joinSpace (wordsOf name)
  let words := wordsOf name
  let words := words.filter (fun w => w ∉ stopwords)
  String.mk (joinSpace words)

/-- Source `court.lower() if court else ""` (`None` and `""` are both falsy). -/
def courtNorm (court : Option String) : String :=
  match court with
  | some c => if c = "" then "" else String.mk (pyLower c.data)
  | none => ""

/-- Source `str(date) if date else ""` — dates already arrive as strings here. -/
def dateNorm (date : Option String) : String :=
  match date with
  | some d => if d = "" then "" else d
  | none => ""

/-- The compound key `f"{name_norm}|{court_norm}|{date_norm}"` hashed by
`compute_case_hash`. -/
def caseKey (case_name : String) (court date : Option String) : String :=
  normalize_case_name case_name ++ "|" ++ courtNorm court ++ "|" ++ dateNorm date

/-! ### SHA-256 (`hashlib.sha256(key.encode("utf-8")).hexdigest()`)

32-bit machine words are naturals reduced mod `2 ^ 32`; the bitwise
operations recurse over a fuel of 32 bit positions so that everything
kernel-evaluates. -/

/-- UTF-8 encoding of one character. -/
def utf8Encode (c : Char) : List Nat :=
  let n := c.toNat
  if n < 0x80 then [n]
  else if n < 0x800 then [0xC0 + n / 0x40, 0x80 + n % 0x40]
  else if n < 0x10000 then
    [0xE0 + n / 0x1000, 0x80 + (n / 0x40) % 0x40, 0x80 + n % 0x40]
  else
    [0xF0 + n / 0x40000, 0x80 + (n / 0x1000) % 0x40,
     0x80 + (n / 0x40) % 0x40, 0x80 + n % 0x40]

/-- Source `str.encode("utf-8")`. -/
def utf8Bytes (s : String) : List Nat := s.data.flatMap utf8Encode

/-- Bitwise XOR over `fuel` low bits. -/
def bxor : Nat → Nat → Nat → Nat
  | 0, _, _ => 0
  | fuel + 1, a, b =>
    (if a % 2 = b % 2 then 0 else 1) + 2 * bxor fuel (a / 2) (b / 2)

/-- Bitwise AND over `fuel` low bits. -/
def band : Nat → Nat → Nat → Nat
  | 0, _, _ => 0
  | fuel + 1, a, b =>
    (if a % 2 = 1 ∧ b % 2 = 1 then 1 else 0) + 2 * band fuel (a / 2) (b / 2)

def xor32 (a b : Nat) : Nat := bxor 32 a b

def and32 (a b : Nat) : Nat := band 32 a b

def not32 (a : Nat) : Nat := 0xFFFFFFFF - a

def rotr32 (x n : Nat) : Nat := x / 2 ^ n + x % 2 ^ n * 2 ^ (32 - n)

def shr32 (x n : Nat) : Nat := x / 2 ^ n

def sha256K : List Nat :=
  [1116352408, 1899447441, 3049323471, 3921009573, 961987163,
   1508970993, 2453635748, 2870763221, 3624381080, 310598401,
   607225278, 1426881987, 1925078388, 2162078206, 2614888103,
   3248222580, 3835390401, 4022224774, 264347078, 604807628,
   770255983, 1249150122, 1555081692, 1996064986, 2554220882,
   2821834349, 2952996808, 3210313671, 3336571891, 3584528711,
   113926993, 338241895, 666307205, 773529912, 1294757372,
   1396182291, 1695183700, 1986661051, 2177026350, 2456956037,
   2730485921, 2820302411, 3259730800, 3345764771, 3516065817,
   3600352804, 4094571909, 275423344, 430227734, 506948616,
   659060556, 883997877, 958139571, 1322822218, 1537002063,
   1747873779, 1955562222, 2024104815, 2227730452, 2361852424,
   2428436474, 2756734187, 3204031479, 3329325298]

def sha256InitH : List Nat :=
  [1779033703, 3144134277, 1013904242, 2773480762, 1359893119,
   2600822924, 528734635, 1541459225]

/-- Source `n` big-endian bytes of `val`. -/
def beBytes (n : Nat) (val : Nat) : List Nat :=
  (List.range n).map (fun i => val / 2 ^ (8 * (n - 1 - i)) % 256)

/-- SHA-256 padding: `0x80`, zeros to 56 mod 64, 8-byte big-endian bit
length. -/
def sha256Pad (msg : List Nat) : List Nat :=
  let L := msg.length
  let k := (56 + 64 - (L + 1) % 64) % 64
  msg ++ [0x80] ++ List.replicate k 0 ++ beBytes 8 (8 * L)

/-- Big-endian 32-bit words from a byte list. -/
def toWords : List Nat → List Nat
  | b0 :: b1 :: b2 :: b3 :: rest =>
    (((b0 * 256 + b1) * 256 + b2) * 256 + b3) :: toWords rest
  | _ => []

/-- Split a byte list into 64-byte blocks (fuel keeps it structural). -/
def chunks64 : Nat → List Nat → List (List Nat)
  | 0, _ => []
  | fuel + 1, l => if l = [] then [] else l.take 64 :: chunks64 fuel (l.drop 64)

def smallSigma0 (x : Nat) : Nat :=
  xor32 (xor32 (rotr32 x 7) (rotr32 x 18)) (shr32 x 3)

def smallSigma1 (x : Nat) : Nat :=
  xor32 (xor32 (rotr32 x 17) (rotr32 x 19)) (shr32 x 10)

def bigSigma0 (x : Nat) : Nat :=
  xor32 (xor32 (rotr32 x 2) (rotr32 x 13)) (rotr32 x 22)

def bigSigma1 (x : Nat) : Nat :=
  xor32 (xor32 (rotr32 x 6) (rotr32 x 11)) (rotr32 x 25)

def chFun (e f g : Nat) : Nat := xor32 (and32 e f) (and32 (not32 e) g)

def majFun (a b c : Nat) : Nat :=
  xor32 (xor32 (and32 a b) (and32 a c)) (and32 b c)

/-- Extend the 16-word block to the 64-word message schedule. -/
def extendSchedule : Nat → List Nat → List Nat
  | 0, w => w
  | n + 1, w =>
    let i := w.length
    let wi := (w.get! (i - 16) + smallSigma0 (w.get! (i - 15)) + w.get! (i - 7)
      + smallSigma1 (w.get! (i - 2))) % 2 ^ 32
    extendSchedule n (w ++ [wi])

/-- The eight working registers of the compression loop. -/
structure ShaRegs where
  a : Nat
  b : Nat
  c : Nat
  d : Nat
  e : Nat
  f : Nat
  g : Nat
  hh : Nat

def shaRound (s : ShaRegs) (kw : Nat × Nat) : ShaRegs :=
  let t1 := (s.hh + bigSigma1 s.e + chFun s.e s.f s.g + kw.1 + kw.2) % 2 ^ 32
  let t2 := (bigSigma0 s.a + majFun s.a s.b s.c) % 2 ^ 32
  ⟨(t1 + t2) % 2 ^ 32, s.a, s.b, s.c, (s.d + t1) % 2 ^ 32, s.e, s.f, s.g⟩

def processBlock (hv : List Nat) (block : List Nat) : List Nat :=
  let w := extendSchedule 48 block
  let s0 : ShaRegs := ⟨hv.get! 0, hv.get! 1, hv.get! 2, hv.get! 3,
    hv.get! 4, hv.get! 5, hv.get! 6, hv.get! 7⟩
  let s := (sha256K.zip w).foldl shaRound s0
  [(hv.get! 0 + s.a) % 2 ^ 32, (hv.get! 1 + s.b) % 2 ^ 32,
   (hv.get! 2 + s.c) % 2 ^ 32, (hv.get! 3 + s.d) % 2 ^ 32,
   (hv.get! 4 + s.e) % 2 ^ 32, (hv.get! 5 + s.f) % 2 ^ 32,
   (hv.get! 6 + s.g) % 2 ^ 32, (hv.get! 7 + s.hh) % 2 ^ 32]

def sha256Words (msg : List Nat) : List Nat :=
  let padded := sha256Pad msg
  (chunks64 padded.length padded).foldl
    (fun hv blk => processBlock hv (toWords blk)) sha256InitH

def hexDigit (n : Nat) : Char :=
  if n < 10 then Char.ofNat (48 + n) else Char.ofNat (87 + n)

def wordHex (w : Nat) : List Char :=
  (List.range 8).map (fun i => hexDigit (w / 16 ^ (7 - i) % 16))

/-- Source `hashlib.sha256(bytes).hexdigest()`. -/
def sha256Hex (msg : List Nat) : String :=
  String.mk ((sha256Words msg).flatMap wordHex)

/-- Source `compute_case_hash`: first 16 hex characters of the SHA-256 of the
normalized compound key. -/
def compute_case_hash (case_name : String) (court date : Option String) :
    String :=
  (sha256Hex (utf8Bytes (caseKey case_name court date))).take 16

end Kite

namespace Kite

/-! ## Streaming deduplication state (`CaseDeduplicator`) -/

/-- Source `CaseDeduplicator` state: the configured similarity threshold (an exact
rational as numerator/denominator — the source default `0.85` is `(17, 20)`)
and the two streaming "seen" sets. -/
structure CaseDeduplicator where
  similarity_threshold : Nat × Nat
  seen_hashes : List String
  seen_ids : List String
  deriving Repr, DecidableEq

/-- A freshly constructed deduplicator (`__init__`): both seen-sets empty. -/
def CaseDeduplicator.fresh (threshold : Nat × Nat) : CaseDeduplicator :=
  ⟨threshold, [], []⟩

/-- Source `CaseDeduplicator.is_duplicate_by_hash`: a hit returns `True`; a miss
records the hash and returns `False`. -/
def is_duplicate_by_hash (dd : CaseDeduplicator) (case_name : String)
    (court date : Option String) : Bool × CaseDeduplicator :=
  let case_hash := compute_case_hash case_name court date
  if case_hash ∈ dd.seen_hashes then (true, dd)
  else (false, { dd with seen_hashes := dd.seen_hashes ++ [case_hash] })

/-- Source `CaseDeduplicator.is_duplicate_by_id`. -/
def is_duplicate_by_id (dd : CaseDeduplicator) (case_id : String) :
    Bool × CaseDeduplicator :=
  if case_id ∈ dd.seen_ids then (true, dd)
  else (false, { dd with seen_ids := dd.seen_ids ++ [case_id] })

/-- Source `CaseDeduplicator.reset`: clears both streaming sets. -/
def CaseDeduplicator.reset (dd : CaseDeduplicator) : CaseDeduplicator :=
  { dd with seen_hashes := [], seen_ids := [] }

/-- One streaming call made against a deduplicator. -/
inductive DedupCall where
  | hashCall (case_name : String) (court date : Option String)
  | idCall (case_id : String)

/-- Replay a sequence of streaming calls, keeping only the state. -/
def runDedupCalls (dd : CaseDeduplicator) (calls : List DedupCall) :
    CaseDeduplicator :=
  calls.foldl (fun dd c =>
    match c with
    | .hashCall n co da => (is_duplicate_by_hash dd n co da).2
    | .idCall i => (is_duplicate_by_id dd i).2) dd

theorem seen_hashes_monotone (calls : List DedupCall) (dd : CaseDeduplicator)
    (x : String) (hx : x ∈ dd.seen_hashes) :
    x ∈ (runDedupCalls dd calls).seen_hashes := by
  induction calls generalizing dd with
  | nil => exact hx
  | cons c rest ih =>
    simp only [runDedupCalls, List.foldl_cons] at *
    apply ih
    cases c with
    | hashCall n co da =>
      unfold is_duplicate_by_hash
      by_cases h : compute_case_hash n co da ∈ dd.seen_hashes
      · simpa [h] using hx
      · simp [h, List.mem_append, hx]
    | idCall i =>
      unfold is_duplicate_by_id
      by_cases h : i ∈ dd.seen_ids <;> simp [h, hx]

/-- C10: on a fresh deduplicator, the first hash check of a case returns
`False` while recording it, and any later hash check of a case with the same
normalized composite key returns `True`, regardless of other calls made in
between. -/
theorem is_duplicate_by_hash_streaming (th : Nat × Nat) (n1 : String)
    (c1 d1 : Option String) (n2 : String) (c2 d2 : Option String)
    (calls : List DedupCall)
    (hkey : caseKey n1 c1 d1 = caseKey n2 c2 d2) :
    (is_duplicate_by_hash (CaseDeduplicator.fresh th) n1 c1 d1).1 = false ∧
    (is_duplicate_by_hash
      (runDedupCalls (is_duplicate_by_hash (CaseDeduplicator.fresh th) n1 c1 d1).2
        calls) n2 c2 d2).1 = true := by
  have hh : compute_case_hash n2 c2 d2 = compute_case_hash n1 c1 d1 := by
    unfold compute_case_hash
    rw [hkey]
  refine ⟨by simp [is_duplicate_by_hash, CaseDeduplicator.fresh], ?_⟩
  have h1 : compute_case_hash n1 c1 d1 ∈
      ((is_duplicate_by_hash (CaseDeduplicator.fresh th) n1 c1 d1).2).seen_hashes := by
    simp [is_duplicate_by_hash, CaseDeduplicator.fresh]
  have h2 := seen_hashes_monotone calls _ _ h1
  set S := runDedupCalls
    (is_duplicate_by_hash (CaseDeduplicator.fresh th) n1 c1 d1).2 calls
  unfold is_duplicate_by_hash
  rw [hh, if_pos h2]

/-- Witness for C10: `"Smith v. Jones"` and `"smith  v jones"` share the
normalized composite key `"smith jones||"`; with no intervening calls the
first check answers `False` and the second `True`. -/
theorem is_duplicate_by_hash_streaming_witness :
    caseKey "Smith v. Jones" none none = caseKey "smith  v jones" none none ∧
    ((is_duplicate_by_hash (CaseDeduplicator.fresh (17, 20))
        "Smith v. Jones" none none).1 = false ∧
      (is_duplicate_by_hash
        (runDedupCalls
          (is_duplicate_by_hash (CaseDeduplicator.fresh (17, 20))
            "Smith v. Jones" none none).2 [])
        "smith  v jones" none none).1 = true) :=
  ⟨by decide,
    is_duplicate_by_hash_streaming (17, 20) "Smith v. Jones" none none
      "smith  v jones" none none [] (by decide)⟩

end Kite

namespace Kite

/-! ## Normalization structure of `compute_case_hash` (C5) -/

/-- Characters surviving the punctuation strip. -/
def keepPunct (c : Char) : Bool := c ∉ punctChars

/-- The relation "Differ only in letter case or in whitespace runs": after lowercasing,
both strings split into the same word sequence. -/
def wsCaseEquiv (s t : String) : Prop :=
  wordsOf (pyLower s.data) = wordsOf (pyLower t.data)

theorem foldl_removeChar (cs : List Char) (s : List Char) :
    cs.foldl removeChar s = s.filter (fun x => x ∉ cs) := by
  induction cs generalizing s with
  | nil => simp
  | cons c rest ih =>
    rw [List.foldl_cons, ih]
    unfold removeChar
    rw [List.filter_filter]
    apply List.filter_congr
    intro x _
    by_cases h1 : x = c <;> by_cases h2 : x ∈ rest <;>
      simp [h1, h2, List.mem_cons]

theorem stripPunct_eq_filter (s : List Char) :
    stripPunct s = s.filter keepPunct := by
  unfold stripPunct keepPunct
  exact foldl_removeChar punctChars s

theorem fields_ne_nil (s : List Char) : fields s ≠ [] := by
  induction s with
  | nil => simp [fields]
  | cons c rest ih =>
    unfold fields
    cases hf : fields rest with
    | nil => exact absurd hf ih
    | cons w ws => by_cases hsp : isPySpace c <;> simp [hsp]

/-- Removing non-whitespace characters commutes with field splitting. -/
theorem fields_filter (p : Char → Bool)
    (hp : ∀ c, isPySpace c = true → p c = true) :
    ∀ s : List Char, fields (s.filter p) = (fields s).map (fun w => w.filter p) := by
  intro s
  induction s with
  | nil => simp [fields]
  | cons c rest ih =>
    cases hf : fields rest with
    | nil => exact absurd hf (fields_ne_nil rest)
    | cons w ws =>
      have ihrw : fields (List.filter p rest) =
          w.filter p :: ws.map (fun w => w.filter p) := by
        rw [ih, hf]
        simp
      by_cases hsp : isPySpace c
      · have hpc : p c = true := hp c hsp
        rw [List.filter_cons]
        simp only [hpc, if_true]
        unfold fields
        rw [ihrw, hf]
        simp [hsp]
      · by_cases hpc : p c = true
        · rw [List.filter_cons]
          simp only [hpc, if_true]
          unfold fields
          rw [ihrw, hf]
          simp [hsp, hpc]
        · have hpc' : p c = false := by
            cases h : p c
            · rfl
            · exact absurd h hpc
          rw [List.filter_cons]
          simp only [hpc', Bool.false_eq_true, if_false]
          rw [ihrw]
          unfold fields
          rw [hf]
          simp [hsp, hpc']

/-- Dropping empty words before or after a word-wise map that sends `[]` to
`[]` makes no difference. -/
theorem filter_ne_map_filter_ne {α : Type} [DecidableEq α]
    (f : List α → List α) (hf : f [] = []) (l : List (List α)) :
    ((l.filter (fun w => w ≠ [])).map f).filter (fun w => w ≠ []) =
      (l.map f).filter (fun w => w ≠ []) := by
  induction l with
  | nil => rfl
  | cons w ws ih =>
    by_cases hw : w = []
    · subst hw
      have h1 : (([] : List α) :: ws).filter (fun w => w ≠ []) =
          ws.filter (fun w => w ≠ []) := by simp
      have h2 : ((([] : List α) :: ws).map f).filter (fun w => w ≠ []) =
          (ws.map f).filter (fun w => w ≠ []) := by
        rw [List.map_cons, hf]
        simp
      rw [h1, h2]
      exact ih
    · have h1 : (w :: ws).filter (fun w => w ≠ []) =
          w :: ws.filter (fun w => w ≠ []) := by simp [hw]
      rw [h1, List.map_cons, List.map_cons]
      by_cases hfw : f w = []
      · have h2 : (f w :: (ws.filter (fun w => w ≠ [])).map f).filter
            (fun w => w ≠ []) =
            ((ws.filter (fun w => w ≠ [])).map f).filter (fun w => w ≠ []) := by
          rw [hfw]
          simp
        have h3 : (f w :: ws.map f).filter (fun w => w ≠ []) =
            (ws.map f).filter (fun w => w ≠ []) := by
          rw [hfw]
          simp
        rw [h2, h3]
        exact ih
      · have h2 : (f w :: (ws.filter (fun w => w ≠ [])).map f).filter
            (fun w => w ≠ []) =
            f w :: ((ws.filter (fun w => w ≠ [])).map f).filter
              (fun w => w ≠ []) := by simp [hfw]
        have h3 : (f w :: ws.map f).filter (fun w => w ≠ []) =
            f w :: (ws.map f).filter (fun w => w ≠ []) := by simp [hfw]
        rw [h2, h3, ih]

/-- How `str.split()` sees a string after the punctuation strip: strip each
word and drop the words that vanish. -/
theorem wordsOf_stripPunct (x : List Char) :
    wordsOf (stripPunct x) =
      ((wordsOf x).map (fun w => w.filter keepPunct)).filter (fun w => w ≠ []) := by
  have hsp : ∀ c, isPySpace c = true → keepPunct c = true := by
    intro c hc
    simp only [isPySpace, Bool.or_eq_true, decide_eq_true_eq] at hc
    rcases hc with ((((h | h) | h) | h) | h) | h <;> subst h <;> decide
  unfold wordsOf
  rw [stripPunct_eq_filter, fields_filter keepPunct hsp x]
  rw [← filter_ne_map_filter_ne (fun w => w.filter keepPunct) rfl (fields x)]

/-- Source `normalize_case_name` factors through the lowercased word sequence. -/
def normFromWords (ws : List (List Char)) : List Char :=
  let ws1 := (ws.map (fun w => w.filter keepPunct)).filter (fun w => w ≠ [])
  let collapsed := joinSpace ws1
  let ws2 := (wordsOf collapsed).filter (fun w => w ∉ stopwords)
  joinSpace ws2

theorem normalize_case_name_eq (n : String) :
    normalize_case_name n = String.mk (normFromWords (wordsOf (pyLower n.data))) := by
  unfold normalize_case_name normFromWords
  simp only [wordsOf_stripPunct]

/-- C5 (amended): `compute_case_hash` is deterministic, insensitive to letter
case and whitespace runs in the case name, and insensitive to letter case in
the court; the hash depends only on the normalized composite key. -/
theorem compute_case_hash_insensitive (n1 n2 : String) (c1 c2 : Option String)
    (d : Option String) (hn : wsCaseEquiv n1 n2)
    (hc : courtNorm c1 = courtNorm c2) :
    compute_case_hash n1 c1 d = compute_case_hash n2 c2 d := by
  unfold wsCaseEquiv at hn
  unfold compute_case_hash caseKey
  rw [normalize_case_name_eq n1, normalize_case_name_eq n2, hn, hc]

/-- Witness for C5 (amended): two renderings of the same case name and court
that differ in letter case and whitespace runs hash identically. -/
theorem compute_case_hash_insensitive_witness :
    wsCaseEquiv "Smith  v. Jones" "smith V. jones" ∧
    courtNorm (some "SC") = courtNorm (some "sc") ∧
    compute_case_hash "Smith  v. Jones" (some "SC") (some "2020") =
      compute_case_hash "smith V. jones" (some "sc") (some "2020") :=
  ⟨(by decide :
      wordsOf (pyLower (String.data "Smith  v. Jones")) =
        wordsOf (pyLower (String.data "smith V. jones"))),
   by decide,
   compute_case_hash_insensitive "Smith  v. Jones" "smith V. jones"
     (some "SC") (some "sc") (some "2020")
     (by decide :
       wordsOf (pyLower (String.data "Smith  v. Jones")) =
         wordsOf (pyLower (String.data "smith V. jones")))
     (by decide)⟩

end Kite

namespace Kite

set_option maxRecDepth 200000 in
/-- Counterexample to C5 as stated: two (name, court, date) triples that
differ only in a whitespace run (inside the court component) hash
differently, because `compute_case_hash` lowercases the court without
collapsing its whitespace. -/
theorem compute_case_hash_ws_counterexample :
    ("a" : String) = "a" ∧
    wordsOf (pyLower (String.data "supreme  court")) =
      wordsOf (pyLower (String.data "supreme court")) ∧
    ("2020" : String) = "2020" ∧
    compute_case_hash "a" (some "supreme  court") (some "2020") ≠
      compute_case_hash "a" (some "supreme court") (some "2020") :=
  ⟨rfl, by decide, rfl, by decide⟩

end Kite

namespace Kite

/-! ## Batch deduplication (`find_duplicates_in_batch`, `deduplicate_batch`)

The name similarity is `difflib.SequenceMatcher(None, a, b).ratio()`,
reimplemented exactly (no junk, and no autojunk: autojunk only activates for
second strings of 200+ characters, far above any case name compared here).
Scores are exact rationals as numerator/denominator pairs; the float
thresholds `0.85` and `0.95` are `(17, 20)` and `(19, 20)`. -/

/-- Modelled from the spec: the `CaseData / case record` value object (its
defining module `kite/utils/data_models.py` is not part of the source
snapshot; spec §3: "a case identified by an optional case_id ..., case_name
(required, 1-1000 chars), ... court, dates ...").  Only the four fields the
deduplicator reads are modelled, with `date` as the string the source
compares by equality. -/
structure CaseData where
  case_id : Option String
  case_name : String
  court : Option String
  date : Option String
  deriving Repr, DecidableEq

instance : Inhabited CaseData := ⟨⟨none, "", none, none⟩⟩

/-- Python truthiness of an optional string (`None` and `""` are falsy). -/
def truthyStr : Option String → Bool
  | some s => s ≠ ""
  | none => false

/-- Ascending positions of character `ch` in `b` (difflib's `b2j` with no
junk). -/
def b2j (b : List Char) (ch : Char) : List Nat :=
  (List.range b.length).filter (fun j => b.get! j = ch)

/-- Inner loop of difflib's `find_longest_match` for one `i`: walk the
candidate `j` positions (ascending), `continue` below `blo`, `break` from
`bhi` on, extend the run length ending at `(i, j)` and improve `best` only
strictly. -/
def flmInner (blo bhi i : Nat) (j2len : List (Nat × Nat)) :
    List Nat → List (Nat × Nat) → Nat × Nat × Nat →
      List (Nat × Nat) × (Nat × Nat × Nat)
  | [], newj2len, best => (newj2len, best)
  | j :: js, newj2len, best =>
    if j < blo then flmInner blo bhi i j2len js newj2len best
    else if bhi ≤ j then (newj2len, best)
    else
      let k := (((j2len.find? (fun kv => kv.1 + 1 = j)).map
        (fun kv => kv.2)).getD 0) + 1
      let newj2len1 := (j, k) :: newj2len
      let best1 := if k > best.2.2 then (i + 1 - k, j + 1 - k, k) else best
      flmInner blo bhi i j2len js newj2len1 best1

/-- Outer loop of `find_longest_match` over `i` in `range(alo, ahi)`. -/
def flmOuter (a b : List Char) (blo bhi : Nat) :
    List Nat → List (Nat × Nat) → Nat × Nat × Nat → Nat × Nat × Nat
  | [], _, best => best
  | i :: rest, j2len, best =>
    let r := flmInner blo bhi i j2len (b2j b (a.get! i)) [] best
    flmOuter a b blo bhi rest r.1 r.2

/-- difflib `SequenceMatcher.find_longest_match` (no junk): leftmost longest
matching block `(i, j, size)` in `a[alo:ahi] × b[blo:bhi]`. -/
def find_longest_match (a b : List Char) (alo ahi blo bhi : Nat) :
    Nat × Nat × Nat :=
  flmOuter a b blo bhi (List.range' alo (ahi - alo)) [] (alo, blo, 0)

/-- Sum of the sizes of all matching blocks (the `matches` of
`SequenceMatcher.ratio`); fuel keeps the divide-and-conquer recursion of
`get_matching_blocks` structural. -/
def matchingTotal (a b : List Char) : Nat → Nat → Nat → Nat → Nat → Nat
  | 0, _, _, _, _ => 0
  | fuel + 1, alo, ahi, blo, bhi =>
    let r := find_longest_match a b alo ahi blo bhi
    if r.2.2 = 0 then 0
    else r.2.2 + matchingTotal a b fuel alo r.1 blo r.2.1
      + matchingTotal a b fuel (r.1 + r.2.2) ahi (r.2.1 + r.2.2) bhi

/-- difflib `SequenceMatcher.ratio()` as an exact rational pair
`(2 * matches, len(a) + len(b))`; Python's `_calculate_ratio` returns `1.0`
when both strings are empty. -/
def ratioPair (a b : List Char) : Nat × Nat :=
  let total := a.length + b.length
  if total = 0 then (1, 1)
  else (2 * matchingTotal a b (total + 1) 0 a.length 0 b.length, total)

/-- The module function `calculate_similarity`: the ratio over the lowercased
texts. -/
def calculate_similarity (text1 text2 : String) : Nat × Nat :=
  ratioPair (pyLower text1.data) (pyLower text2.data)

/-- Comparison `x ≥ y` of exact rationals given as numerator/denominator
pairs with positive denominators: the embedding of the source's float `>=`
on similarity scores. -/
def ratGE (x y : Nat × Nat) : Bool := y.2 * x.1 ≥ y.1 * x.2

/-- Index pairs `(i, j)` with `i < j < n`, in the source's nested-loop
order. -/
def pairIndices (n : Nat) : List (Nat × Nat) :=
  (List.range n).flatMap (fun i =>
    (List.range' (i + 1) (n - (i + 1))).map (fun j => (i, j)))

/-- `CaseDeduplicator.find_duplicates_in_batch`: an exact `case_id` match
short-circuits with score `1.0`; otherwise flag when the name similarity
reaches the threshold AND (same court OR same date OR similarity ≥ 0.95). -/
def find_duplicates_in_batch (dd : CaseDeduplicator) (cases : List CaseData) :
    List (Nat × Nat × (Nat × Nat)) :=
  (pairIndices cases.length).foldl (fun duplicates ij =>
    let case1 := cases.get! ij.1
    let case2 := cases.get! ij.2
    if truthyStr case1.case_id ∧ truthyStr case2.case_id ∧
        case1.case_id = case2.case_id then
      duplicates ++ [(ij.1, ij.2, ((1, 1) : Nat × Nat))]
    else
      let name_sim := calculate_similarity case1.case_name case2.case_name
      if ratGE name_sim dd.similarity_threshold then
        let same_court := if truthyStr case1.court ∧ truthyStr case2.court
          then decide (case1.court = case2.court) else false
        let same_date := if truthyStr case1.date ∧ truthyStr case2.date
          then decide (case1.date = case2.date) else false
        if same_court || same_date || ratGE name_sim (19, 20) then
          duplicates ++ [(ij.1, ij.2, name_sim)]
        else duplicates
      else duplicates) []

/-- Python `set.add` on index sets. -/
def natSetAdd (s : List Nat) (x : Nat) : List Nat :=
  if x ∈ s then s else s ++ [x]

/-- The `to_remove` index set built by `deduplicate_batch`: for each flagged
pair keep drops the higher index under `keep="first"`, else the lower. -/
def to_remove_of (duplicate_pairs : List (Nat × Nat × (Nat × Nat)))
    (keep : String) : List Nat :=
  duplicate_pairs.foldl (fun to_remove t =>
    if keep = "first" then natSetAdd to_remove t.2.1
    else natSetAdd to_remove t.1) []

/-- `CaseDeduplicator.deduplicate_batch`: find the duplicate pairs, build the
removal set, and keep the cases whose index survives. -/
def deduplicate_batch (dd : CaseDeduplicator) (cases : List CaseData)
    (keep : String) : List CaseData :=
  if cases = [] then []
  else
    (((List.range cases.length).zip cases).filter
      (fun ic =>
        ic.1 ∉ to_remove_of (find_duplicates_in_batch dd cases) keep)).map
      (fun ic => ic.2)

end Kite

namespace Kite

/-- Counterexample to C2 as stated: in a concrete 3-case batch whose flagged
duplicate pairs are exactly (0,1) and (1,2) — and not (0,2) —
`deduplicate_batch` with `keep="first"` does NOT retain case 2: it removes
both case 1 (from pair (0,1)) and case 2 (from pair (1,2)), returning only
case 0. -/
theorem deduplicate_batch_chain_counterexample :
    (find_duplicates_in_batch (CaseDeduplicator.fresh (17, 20))
        [⟨some "X", "zzzz", none, none⟩, ⟨some "X", "abcd", none, none⟩,
         ⟨none, "abcd", none, none⟩]).map (fun t => (t.1, t.2.1))
      = [(0, 1), (1, 2)] ∧
    deduplicate_batch (CaseDeduplicator.fresh (17, 20))
        [⟨some "X", "zzzz", none, none⟩, ⟨some "X", "abcd", none, none⟩,
         ⟨none, "abcd", none, none⟩] "first"
      = [⟨some "X", "zzzz", none, none⟩] ∧
    (⟨none, "abcd", none, none⟩ : CaseData) ∉
      deduplicate_batch (CaseDeduplicator.fresh (17, 20))
        [⟨some "X", "zzzz", none, none⟩, ⟨some "X", "abcd", none, none⟩,
         ⟨none, "abcd", none, none⟩] "first" := by
  refine ⟨by decide, by decide, by decide⟩

/-- C2 (amended): for every batch of exactly three cases in which
`find_duplicates_in_batch` flags pair (0,1) and pair (1,2) but not (0,2),
`deduplicate_batch` with `keep="first"` removes the higher index of every
flagged pair — both case 1 and case 2 — and returns only case 0. -/
theorem deduplicate_batch_chain (dd : CaseDeduplicator) (c0 c1 c2 : CaseData)
    (h : (find_duplicates_in_batch dd [c0, c1, c2]).map (fun t => (t.1, t.2.1))
      = [(0, 1), (1, 2)]) :
    deduplicate_batch dd [c0, c1, c2] "first" = [c0] := by
  have hF : ∃ t1 t2, find_duplicates_in_batch dd [c0, c1, c2] = [t1, t2] ∧
      t1.2.1 = 1 ∧ t2.2.1 = 2 := by
    cases hFe : find_duplicates_in_batch dd [c0, c1, c2] with
    | nil => rw [hFe] at h; simp at h
    | cons t1 rest =>
      cases rest with
      | nil => rw [hFe] at h; simp at h
      | cons t2 rest2 =>
        cases rest2 with
        | cons t3 rest3 => rw [hFe] at h; simp at h
        | nil =>
          rw [hFe] at h
          simp only [List.map_cons, List.map_nil, List.cons.injEq,
            Prod.mk.injEq, and_true] at h
          refine ⟨t1, t2, rfl, ?_, ?_⟩ <;> tauto
  obtain ⟨t1, t2, hFe, h12, h22⟩ := hF
  have hto : to_remove_of (find_duplicates_in_batch dd [c0, c1, c2]) "first"
      = [1, 2] := by
    rw [hFe]
    unfold to_remove_of
    simp only [List.foldl_cons, List.foldl_nil, eq_self_iff_true, ite_true,
      h12, h22]
    decide
  unfold deduplicate_batch
  rw [if_neg (show ¬([c0, c1, c2] = []) from by simp), hto]
  have hlen : ([c0, c1, c2] : List CaseData).length = 3 := rfl
  rw [hlen]
  have hrange : List.range 3 = [0, 1, 2] := by decide
  rw [hrange]
  simp [List.zip_cons_cons]

/-- Witness for C2 (amended) at the concrete batch of the counterexample. -/
theorem deduplicate_batch_chain_witness :
    (find_duplicates_in_batch (CaseDeduplicator.fresh (17, 20))
        [⟨some "X", "zzzz", none, none⟩, ⟨some "X", "abcd", none, none⟩,
         ⟨none, "abcd", none, none⟩]).map (fun t => (t.1, t.2.1))
      = [(0, 1), (1, 2)] ∧
    deduplicate_batch (CaseDeduplicator.fresh (17, 20))
        [⟨some "X", "zzzz", none, none⟩, ⟨some "X", "abcd", none, none⟩,
         ⟨none, "abcd", none, none⟩] "first"
      = [⟨some "X", "zzzz", none, none⟩] :=
  ⟨by decide,
    deduplicate_batch_chain (CaseDeduplicator.fresh (17, 20))
      ⟨some "X", "zzzz", none, none⟩ ⟨some "X", "abcd", none, none⟩
      ⟨none, "abcd", none, none⟩ (by decide)⟩

end Kite

namespace Kite

/-! ## Regular-expression engine for the citation patterns

Python `re` is a backtracking engine: alternation prefers the left branch,
quantifiers are greedy, and the match reported at a position is the first
one in backtracking order.  `rxRun` returns the list of candidate match end
positions in exactly that priority order; `rxMatchAt` takes the first. -/

/-- Character classes appearing in the citation patterns.  Classes written
`[A-Z]` in a pattern compiled with `re.IGNORECASE` match both cases
(`alpha`, `romanCI`); the one case-sensitive pattern uses `upper`/`lower`. -/
inductive CharCls where
  | lit (c : Char)
  | litCI (c : Char)
  | digit
  | space
  | upper
  | lower
  | alpha
  | romanCI
  deriving Repr, DecidableEq

def clsTest : CharCls → Char → Bool
  | .lit c, x => x = c
  | .litCI c, x => x.toLower = c.toLower
  | .digit, x => x.isDigit
  | .space, x => isPySpace x
  | .upper, x => 'A' ≤ x && x ≤ 'Z'
  | .lower, x => 'a' ≤ x && x ≤ 'z'
  | .alpha, x => ('A' ≤ x && x ≤ 'Z') || ('a' ≤ x && x ≤ 'z')
  | .romanCI, x => x ∈ (['I', 'V', 'X', 'i', 'v', 'x'] : List Char)

/-- Regular expressions: empty, one character class, sequencing, (left-first)
alternation, greedy star, greedy option and the `\b` word boundary. -/
inductive Rx where
  | eps
  | cls (c : CharCls)
  | seq (a b : Rx)
  | alt (a b : Rx)
  | star (a : Rx)
  | opt (a : Rx)
  | wb
  deriving Repr, DecidableEq

/-- Word characters for `\b` (ASCII scope of `\w`). -/
def isWordChar (c : Char) : Bool := c.isAlphanum || c = '_'

/-- Greedy-star iteration: prefer one more repetition (taking the body's end
positions in their own priority order) over stopping; a repetition must
consume at least one character, as in Python. -/
def starRun (f : Nat → List Nat) : Nat → Nat → List Nat
  | 0, i => [i]
  | fuel + 1, i =>
    ((f i).filter (fun j => j > i)).flatMap (fun j => starRun f fuel j) ++ [i]

/-- All candidate end positions of a match of `r` at position `i` of `s`, in
backtracking priority order. -/
def rxRun (s : List Char) : Rx → Nat → List Nat
  | .eps, i => [i]
  | .cls c, i =>
    match s.get? i with
    | some ch => if clsTest c ch then [i + 1] else []
    | none => []
  | .seq a b, i => (rxRun s a i).flatMap (fun j => rxRun s b j)
  | .alt a b, i => rxRun s a i ++ rxRun s b i
  | .star a, i => starRun (rxRun s a) (s.length + 1 - i) i
  | .opt a, i => rxRun s a i ++ [i]
  | .wb, i =>
    let before := if i = 0 then false else
      match s.get? (i - 1) with
      | some c => isWordChar c
      | none => false
    let after := match s.get? i with
      | some c => isWordChar c
      | none => false
    if before ≠ after then [i] else []

/-- End position of the match of `r` at `i`, if any (the first candidate in
backtracking order, as Python reports it). -/
def rxMatchAt (s : List Char) (r : Rx) (i : Nat) : Option Nat :=
  (rxRun s r i).head?

/-- Scan for non-overlapping matches from position `pos` on
(`re.finditer`): try each start position left to right, and resume after the
end of a non-empty match (after one character for an empty match). -/
def finditerFrom (s : List Char) (r : Rx) : Nat → Nat → List (Nat × Nat)
  | 0, _ => []
  | fuel + 1, pos =>
    if pos > s.length then []
    else
      match rxMatchAt s r pos with
      | some e =>
        if e = pos then (pos, e) :: finditerFrom s r fuel (pos + 1)
        else (pos, e) :: finditerFrom s r fuel e
      | none => finditerFrom s r fuel (pos + 1)

def finditer (s : List Char) (r : Rx) : List (Nat × Nat) :=
  finditerFrom s r (s.length + 1) 0

/-- Sequence of `n` copies (`{n}`). -/
def rxPow (a : Rx) : Nat → Rx
  | 0 => .eps
  | n + 1 => .seq a (rxPow a n)

/-- Greedy chain of up to `n` further copies. -/
def rxOptChain (a : Rx) : Nat → Rx
  | 0 => .eps
  | n + 1 => .opt (.seq a (rxOptChain a n))

/-- Bounded repetition `{m,n}` (greedy). -/
def rxRep (a : Rx) (m n : Nat) : Rx := .seq (rxPow a m) (rxOptChain a (n - m))

/-- One-or-more `+` (greedy). -/
def rxPlus (a : Rx) : Rx := .seq a (.star a)

/-- Literal string, case-sensitive. -/
def rstr (s : String) : Rx :=
  (s.data.map (fun c => Rx.cls (.lit c))).foldr .seq .eps

/-- Literal string under `re.IGNORECASE`. -/
def rstrCI (s : String) : Rx :=
  (s.data.map (fun c => Rx.cls (.litCI c))).foldr .seq .eps

/-- Chain a non-empty list of alternatives left-to-right. -/
def rxAlts : List Rx → Rx
  | [] => .eps
  | [r] => r
  | r :: rest => .alt r (rxAlts rest)

/-- Sequence a list of regexes. -/
def rxSeqs (rs : List Rx) : Rx := rs.foldr .seq .eps

def rdigit : Rx := .cls .digit
def rdplus : Rx := rxPlus rdigit
def rsp : Rx := .cls .space
def rsplus : Rx := rxPlus rsp
def rsopt : Rx := .opt rsp
def rsstar : Rx := .star rsp

end Kite

namespace Kite

/-! ## Pattern registry (`citation_patterns.py`)

Each `re.compile(...)` literal is translated to an `Rx` value; groups only
delimit (the extractor uses `match.group(0)` and `match.start()` alone), so
they are not represented.  All patterns carry `re.IGNORECASE` except the
"State Reporter" pattern. -/

/-- Record `CitationPattern` (name, compiled pattern, jurisdiction, format
example). -/
structure CitationPattern where
  name : String
  pattern : Rx
  jurisdiction : String
  format_example : String
  deriving Repr, DecidableEq

/-- US patterns (`US_PATTERNS`). -/
def US_PATTERNS : List CitationPattern := [
  { name := "US Supreme Court Reporter"
    pattern := rxSeqs [.wb, rdplus, rsplus, .cls (.litCI 'U'),
      .opt (.cls (.lit '.')), .cls (.litCI 'S'), .opt (.cls (.lit '.')),
      rsplus, rdplus, .wb]
    jurisdiction := "US"
    format_example := "123 U.S. 456" },
  { name := "Federal Reporter (F., F.2d, F.3d, F.4th)"
    pattern := rxSeqs [.wb, rdplus, rsplus, .cls (.litCI 'F'),
      .cls (.lit '.'), .opt (rxAlts [rstrCI "2d", rstrCI "3d", rstrCI "4th"]),
      rsplus, rdplus, .wb]
    jurisdiction := "US"
    format_example := "123 F.3d 456" },
  { name := "Federal Supplement (F.Supp., F.Supp.2d, F.Supp.3d)"
    pattern := rxSeqs [.wb, rdplus, rsplus, .cls (.litCI 'F'),
      .cls (.lit '.'), rsopt, rstrCI "Supp", .cls (.lit '.'),
      .opt (rxAlts [rstrCI "2d", rstrCI "3d"]), rsplus, rdplus, .wb]
    jurisdiction := "US"
    format_example := "123 F.Supp.2d 456" },
  { name := "Supreme Court Reporter"
    pattern := rxSeqs [.wb, rdplus, rsplus, .cls (.litCI 'S'),
      .opt (.cls (.lit '.')), rsopt, rstrCI "Ct", .opt (.cls (.lit '.')),
      rsplus, rdplus, .wb]
    jurisdiction := "US"
    format_example := "123 S.Ct. 456" },
  { name := "Lawyers Edition (L.Ed., L.Ed.2d)"
    pattern := rxSeqs [.wb, rdplus, rsplus, .cls (.litCI 'L'),
      .opt (.cls (.lit '.')), rsopt, rstrCI "Ed", .opt (.cls (.lit '.')),
      .opt (rstrCI "2d"), rsplus, rdplus, .wb]
    jurisdiction := "US"
    format_example := "123 L.Ed.2d 456" },
  { name := "State Reporter"
    pattern := rxSeqs [.wb, rdplus, rsplus, .cls .upper,
      rxRep (.cls .lower) 1 4, .cls (.lit '.'),
      .opt (rxAlts [rstr "2d", rstr "3d"]), rsplus, rdplus, .wb]
    jurisdiction := "US"
    format_example := "123 Cal.2d 456" }]

/-- Canadian patterns (`CANADIAN_PATTERNS`). -/
def CANADIAN_PATTERNS : List CitationPattern := [
  { name := "Supreme Court Reports (SCR)"
    pattern := rxSeqs [.cls (.lit '['), rxPow rdigit 4, .cls (.lit ']'),
      rsplus, rdplus, rsplus, .cls (.litCI 'S'), .opt (.cls (.lit '.')),
      .cls (.litCI 'C'), .opt (.cls (.lit '.')), .cls (.litCI 'R'),
      .opt (.cls (.lit '.')), rsplus, rdplus]
    jurisdiction := "Canada"
    format_example := "[2020] 1 S.C.R. 123" },
  { name := "Federal Court Reports"
    pattern := rxSeqs [.cls (.lit '['), rxPow rdigit 4, .cls (.lit ']'),
      rsplus, rdplus, rsplus, .cls (.litCI 'F'), .opt (.cls (.lit '.')),
      .cls (.litCI 'C'), .opt (.cls (.lit '.')), .cls (.litCI 'R'),
      .opt (.cls (.lit '.')), rsplus, rdplus]
    jurisdiction := "Canada"
    format_example := "[2020] 1 F.C.R. 123" },
  { name := "CanLII Citation"
    pattern := rxSeqs [rxPow rdigit 4, rsplus, rxRep (.cls .alpha) 2 5,
      rsplus, rdplus]
    jurisdiction := "Canada"
    format_example := "2020 SCC 15" }]

/-- UK patterns (`UK_PATTERNS`). -/
def UK_PATTERNS : List CitationPattern := [
  { name := "Neutral Citation (UK)"
    pattern := rxSeqs [.cls (.lit '['), rxPow rdigit 4, .cls (.lit ']'),
      rsplus,
      rxAlts [rstrCI "UKSC", rstrCI "UKHL", rstrCI "EWCA", rstrCI "EWHC",
        rstrCI "UKUT", rstrCI "UKFTT"],
      rsplus,
      .opt (rxAlts [rstrCI "Civ", rstrCI "Crim", rstrCI "Admin", rstrCI "Ch",
        rstrCI "Comm", rstrCI "Fam", rstrCI "QB", rstrCI "Pat"]),
      rsstar, rdplus]
    jurisdiction := "UK"
    format_example := "[2020] UKSC 15" },
  { name := "Appeal Cases (AC)"
    pattern := rxSeqs [.cls (.lit '['), rxPow rdigit 4, .cls (.lit ']'),
      rsplus, rstrCI "AC", rsplus, rdplus]
    jurisdiction := "UK"
    format_example := "[2020] AC 123" },
  { name := "Weekly Law Reports (WLR)"
    pattern := rxSeqs [.cls (.lit '['), rxPow rdigit 4, .cls (.lit ']'),
      rsplus, rdplus, rsplus, .cls (.litCI 'W'), .opt (.cls (.lit '.')),
      .cls (.litCI 'L'), .opt (.cls (.lit '.')), .cls (.litCI 'R'),
      .opt (.cls (.lit '.')), rsplus, rdplus]
    jurisdiction := "UK"
    format_example := "[2020] 1 WLR 123" },
  { name := "All England Reports (All ER)"
    pattern := rxSeqs [.cls (.lit '['), rxPow rdigit 4, .cls (.lit ']'),
      rsplus, rdplus, rsplus, rstrCI "All", rsplus, .cls (.litCI 'E'),
      .opt (.cls (.lit '.')), .cls (.litCI 'R'), .opt (.cls (.lit '.')),
      rsplus, rdplus]
    jurisdiction := "UK"
    format_example := "[2020] 1 All ER 123" }]

/-- Australian patterns (`AUSTRALIAN_PATTERNS`). -/
def AUSTRALIAN_PATTERNS : List CitationPattern := [
  { name := "Commonwealth Law Reports (CLR)"
    pattern := rxSeqs [.cls (.lit '('), rxPow rdigit 4, .cls (.lit ')'),
      rsplus, rdplus, rsplus, .cls (.litCI 'C'), .opt (.cls (.lit '.')),
      .cls (.litCI 'L'), .opt (.cls (.lit '.')), .cls (.litCI 'R'),
      .opt (.cls (.lit '.')), rsplus, rdplus]
    jurisdiction := "Australia"
    format_example := "(2020) 123 CLR 456" },
  { name := "Federal Court Reports (FCR)"
    pattern := rxSeqs [.cls (.lit '('), rxPow rdigit 4, .cls (.lit ')'),
      rsplus, rdplus, rsplus, .cls (.litCI 'F'), .opt (.cls (.lit '.')),
      .cls (.litCI 'C'), .opt (.cls (.lit '.')), .cls (.litCI 'R'),
      .opt (.cls (.lit '.')), rsplus, rdplus]
    jurisdiction := "Australia"
    format_example := "(2020) 123 FCR 456" },
  { name := "AustLII Medium Neutral Citation"
    pattern := rxSeqs [.cls (.lit '['), rxPow rdigit 4, .cls (.lit ']'),
      rsplus, rxPow (.cls .alpha) 3, .star (.cls .alpha), rsplus, rdplus]
    jurisdiction := "Australia"
    format_example := "[2020] HCA 15" }]

/-- EU patterns (`EU_PATTERNS`). -/
def EU_PATTERNS : List CitationPattern := [
  { name := "ECLI Citation"
    pattern := rxSeqs [rstrCI "ECLI", .cls (.lit ':'),
      rxPow (.cls .alpha) 2, .cls (.lit ':'), rxPlus (.cls .alpha),
      .cls (.lit ':'), rxPow rdigit 4, .cls (.lit ':'), rdplus]
    jurisdiction := "EU"
    format_example := "ECLI:EU:C:2020:123" },
  { name := "EU Case Number"
    pattern := rxSeqs [rstrCI "Case", rsplus, .cls (.litCI 'C'),
      .cls (.lit '-'), rdplus, .cls (.lit '/'), rdplus]
    jurisdiction := "EU"
    format_example := "Case C-123/20" }]

/-- International patterns (`INTERNATIONAL_PATTERNS`). -/
def INTERNATIONAL_PATTERNS : List CitationPattern := [
  { name := "ICJ Reports"
    pattern := rxSeqs [.cls (.litCI 'I'), .opt (.cls (.lit '.')),
      .cls (.litCI 'C'), .opt (.cls (.lit '.')), .cls (.litCI 'J'),
      .opt (.cls (.lit '.')), rsplus, rstrCI "Reports", rsplus,
      .opt (.cls (.lit '(')), rxPow rdigit 4, .opt (.cls (.lit ')')),
      .opt (.cls (.lit ',')), rsplus, rdplus]
    jurisdiction := "International"
    format_example := "ICJ Reports (2020), 123" },
  { name := "ECHR Citation"
    pattern := rxSeqs [rstrCI "ECHR", rsplus, rxPow rdigit 4,
      .cls (.lit '-'), rxPlus (.cls .romanCI)]
    jurisdiction := "International"
    format_example := "ECHR 2020-III" }]

/-- The aggregate list (`ALL_PATTERNS`), in registry order. -/
def ALL_PATTERNS : List CitationPattern :=
  US_PATTERNS ++ CANADIAN_PATTERNS ++ UK_PATTERNS ++ AUSTRALIAN_PATTERNS ++
    EU_PATTERNS ++ INTERNATIONAL_PATTERNS

/-- The per-jurisdiction lookup table (`PATTERNS_BY_JURISDICTION`). -/
def PATTERNS_BY_JURISDICTION : List (String × List CitationPattern) :=
  [("US", US_PATTERNS), ("Canada", CANADIAN_PATTERNS), ("UK", UK_PATTERNS),
   ("Australia", AUSTRALIAN_PATTERNS), ("EU", EU_PATTERNS),
   ("International", INTERNATIONAL_PATTERNS)]

/-- The registered jurisdiction keys. -/
def registryKeys : List String :=
  ["US", "Canada", "UK", "Australia", "EU", "International"]

/-- `get_patterns_for_jurisdiction`: `[]` for an unknown jurisdiction. -/
def get_patterns_for_jurisdiction (jurisdiction : String) :
    List CitationPattern :=
  ((PATTERNS_BY_JURISDICTION.find? (fun kv => kv.1 = jurisdiction)).map
    (fun kv => kv.2)).getD []

end Kite

namespace Kite

/-! ## Citation extractor (`citation_extractor.py`) -/

/-- Dataclass `Citation` (confidence defaults to `1.0`). -/
structure Citation where
  text : String
  normalized : String
  jurisdiction : String
  pattern_name : String
  position : Nat
  confidence : ℚ
  deriving Repr, DecidableEq

/-- Python `str.strip()`. -/
def pyStrip (s : List Char) : List Char :=
  ((s.dropWhile isPySpace).reverse.dropWhile isPySpace).reverse

/-- Python `str.replace('  ', ' ')`: non-overlapping, left to right. -/
def replaceDoubleSpace : List Char → List Char
  | ' ' :: ' ' :: rest => ' ' :: replaceDoubleSpace rest
  | c :: rest => c :: replaceDoubleSpace rest
  | [] => []

/-- `CitationExtractor._normalize_citation`: strip, collapse whitespace,
then the (by now vacuous) double-space replacement. -/
def normalize_citation (text : List Char) : List Char :=
  let normalized := pyStrip text
  let normalized := joinSpace (wordsOf normalized)
  replaceDoubleSpace normalized

/-- Stable insertion of a citation into a position-sorted list (before the
first strictly later citation, hence after all earlier equals — the
behaviour of Python's stable `list.sort(key=lambda c: c.position)`). -/
def insertByPos (c : Citation) : List Citation → List Citation
  | [] => [c]
  | x :: xs =>
    if c.position < x.position then c :: x :: xs else x :: insertByPos c xs

/-- Stable sort by `position`. -/
def sortByPos (citations : List Citation) : List Citation :=
  citations.foldl (fun acc c => insertByPos c acc) []

/-- `CitationExtractor._deduplicate`: keep the first citation for each
normalized form. -/
def dedupCitations (citations : List Citation) : List Citation :=
  (citations.foldl (fun acc citation =>
    if citation.normalized ∈ acc.1 then acc
    else (acc.1 ++ [citation.normalized], acc.2 ++ [citation]))
    (([], []) : List String × List Citation)).2

/-- The match loop of `CitationExtractor.extract`: one `Citation` per regex
match per pattern, then the position sort, then optional deduplication. -/
def extractWithPatterns (patterns : List CitationPattern) (text : String)
    (deduplicate : Bool) : List Citation :=
  let citations := patterns.flatMap (fun pattern =>
    (finditer text.data pattern.pattern).map (fun se =>
      let citation_text := (text.data.drop se.1).take (se.2 - se.1)
      { text := String.mk citation_text
        normalized := String.mk (normalize_citation citation_text)
        jurisdiction := pattern.jurisdiction
        pattern_name := pattern.name
        position := se.1
        confidence := 1 }))
  let citations := sortByPos citations
  if deduplicate then dedupCitations citations else citations

/-- Pattern selection of `CitationExtractor.__init__`: a truthy jurisdiction
with registered patterns selects them; an unknown jurisdiction falls back to
the full set (with a logged warning). -/
def selectPatterns (jurisdiction : Option String) : List CitationPattern :=
  match jurisdiction with
  | some j =>
    if j = "" then ALL_PATTERNS
    else
      let ps := get_patterns_for_jurisdiction j
      if ps = [] then ALL_PATTERNS else ps
  | none => ALL_PATTERNS

/-- The module convenience function `extract_citations` (constructs an
extractor for the jurisdiction and runs `extract`). -/
def extract_citations (text : String) (jurisdiction : Option String)
    (deduplicate : Bool) : List Citation :=
  extractWithPatterns (selectPatterns jurisdiction) text deduplicate

end Kite

namespace Kite

set_option maxRecDepth 100000 in
/-- C4: extracting with deduplication from
`"See 123 U.S. 456 and 123 U.S. 456 again."` over the full pattern set
returns exactly one citation, normalized to `"123 U.S. 456"` (both raw
matches normalize identically and the second is dropped). -/
theorem extract_dedups_us_citation :
    extract_citations "See 123 U.S. 456 and 123 U.S. 456 again." none true =
      [{ text := "123 U.S. 456", normalized := "123 U.S. 456",
         jurisdiction := "US", pattern_name := "US Supreme Court Reporter",
         position := 4, confidence := 1 }] := by
  decide

theorem mem_insertByPos (c x : Citation) (l : List Citation)
    (h : x ∈ insertByPos c l) : x = c ∨ x ∈ l := by
  induction l with
  | nil =>
    unfold insertByPos at h
    simp at h
    exact Or.inl h
  | cons y ys ih =>
    unfold insertByPos at h
    by_cases hp : c.position < y.position
    · rw [if_pos hp] at h
      simp only [List.mem_cons] at h
      rcases h with h | h | h
      · exact Or.inl h
      · exact Or.inr (by simp [h])
      · exact Or.inr (by simp [h])
    · rw [if_neg hp] at h
      simp only [List.mem_cons] at h
      rcases h with h | h
      · exact Or.inr (by simp [h])
      · rcases ih h with h' | h'
        · exact Or.inl h'
        · exact Or.inr (by simp [h'])

theorem mem_sortByPos_aux (l : List Citation) (acc : List Citation)
    (x : Citation) (h : x ∈ l.foldl (fun acc c => insertByPos c acc) acc) :
    x ∈ acc ∨ x ∈ l := by
  induction l generalizing acc with
  | nil => exact Or.inl h
  | cons c cs ih =>
    simp only [List.foldl_cons] at h
    rcases ih (insertByPos c acc) h with h' | h'
    · rcases mem_insertByPos c x acc h' with h'' | h''
      · exact Or.inr (by simp [h''])
      · exact Or.inl h''
    · exact Or.inr (by simp [h'])

theorem mem_sortByPos (citations : List Citation) (x : Citation)
    (h : x ∈ sortByPos citations) : x ∈ citations := by
  rcases mem_sortByPos_aux citations [] x h with h' | h'
  · simp at h'
  · exact h'

theorem mem_dedupCitations_aux (l : List Citation)
    (acc : List String × List Citation) (x : Citation)
    (h : x ∈ (l.foldl (fun acc citation =>
      if citation.normalized ∈ acc.1 then acc
      else (acc.1 ++ [citation.normalized], acc.2 ++ [citation])) acc).2) :
    x ∈ acc.2 ∨ x ∈ l := by
  induction l generalizing acc with
  | nil => exact Or.inl h
  | cons c cs ih =>
    simp only [List.foldl_cons] at h
    by_cases hm : c.normalized ∈ acc.1
    · rw [if_pos hm] at h
      rcases ih acc h with h' | h'
      · exact Or.inl h'
      · exact Or.inr (by simp [h'])
    · rw [if_neg hm] at h
      rcases ih (acc.1 ++ [c.normalized], acc.2 ++ [c]) h with h' | h'
      · simp only [List.mem_append, List.mem_singleton] at h'
        rcases h' with h'' | h''
        · exact Or.inl h''
        · exact Or.inr (by simp [h''])
      · exact Or.inr (by simp [h'])

theorem mem_dedupCitations (citations : List Citation) (x : Citation)
    (h : x ∈ dedupCitations citations) : x ∈ citations := by
  rcases mem_dedupCitations_aux citations ([], []) x h with h' | h'
  · simp at h'
  · exact h'

/-- Every extracted citation carries the jurisdiction tag of one of the
selected patterns. -/
theorem extractWithPatterns_jurisdiction (patterns : List CitationPattern)
    (text : String) (deduplicate : Bool) (c : Citation)
    (hc : c ∈ extractWithPatterns patterns text deduplicate) :
    ∃ p ∈ patterns, c.jurisdiction = p.jurisdiction := by
  unfold extractWithPatterns at hc
  have hsorted : c ∈ sortByPos (patterns.flatMap (fun pattern =>
      (finditer text.data pattern.pattern).map (fun se =>
        let citation_text := (text.data.drop se.1).take (se.2 - se.1)
        { text := String.mk citation_text
          normalized := String.mk (normalize_citation citation_text)
          jurisdiction := pattern.jurisdiction
          pattern_name := pattern.name
          position := se.1
          confidence := 1 }))) := by
    by_cases hd : deduplicate
    · rw [if_pos (by simp [hd])] at hc
      exact mem_dedupCitations _ c hc
    · rw [if_neg (by simp [hd])] at hc
      exact hc
  have hflat := mem_sortByPos _ c hsorted
  simp only [List.mem_flatMap, List.mem_map] at hflat
  obtain ⟨p, hp, se, _, hcc⟩ := hflat
  exact ⟨p, hp, by rw [← hcc]⟩

/-- C6: with a registered jurisdiction filter (every registered key has at
least one pattern), every extracted citation's jurisdiction field equals the
filter. -/
theorem extract_jurisdiction_filtered (J : String) (hJ : J ∈ registryKeys)
    (text : String) (deduplicate : Bool) (c : Citation)
    (hc : c ∈ extract_citations text (some J) deduplicate) :
    c.jurisdiction = J := by
  have hall : ∀ p ∈ selectPatterns (some J), p.jurisdiction = J := by
    simp only [registryKeys, List.mem_cons, List.mem_singleton,
      List.not_mem_nil, or_false] at hJ
    rcases hJ with h | h | h | h | h | h <;> subst h <;> decide
  obtain ⟨p, hp, heq⟩ :=
    extractWithPatterns_jurisdiction (selectPatterns (some J)) text
      deduplicate c hc
  rw [heq]
  exact hall p hp

/-- Witness for C6: extracting from `"Case C-123/20"` with the `"EU"` filter
yields a citation tagged `"EU"`. -/
theorem extract_jurisdiction_filtered_witness :
    ("EU" : String) ∈ registryKeys ∧
    ({ text := "Case C-123/20", normalized := "Case C-123/20",
       jurisdiction := "EU", pattern_name := "EU Case Number",
       position := 0, confidence := 1 } : Citation) ∈
      extract_citations "Case C-123/20" (some "EU") true ∧
    ({ text := "Case C-123/20", normalized := "Case C-123/20",
       jurisdiction := "EU", pattern_name := "EU Case Number",
       position := 0, confidence := 1 } : Citation).jurisdiction = "EU" :=
  ⟨by decide, by decide,
    extract_jurisdiction_filtered "EU" (by decide) "Case C-123/20" true
      { text := "Case C-123/20", normalized := "Case C-123/20",
        jurisdiction := "EU", pattern_name := "EU Case Number",
        position := 0, confidence := 1 } (by decide)⟩

end Kite

namespace Kite

/-! ## Validation pipeline (`validation_pipeline.py`)

The pydantic schema construction (`ValidatedCaseData(**case_data)`) is the
`try` boundary of `validate_case`: the pipeline receives either a validated
record or the collected per-field error strings, which is how it is embedded
here.  Only the fields the business-rule and suspicious-pattern checks read
are carried; `date_year` is `case.date.year` when a decision date exists. -/

/-- Validated record fields read by `_validate_business_rules` and
`_check_suspicious_patterns`. -/
structure ValidatedCaseData where
  case_name : String
  jurisdiction : String
  case_id : Option String
  docket_number : Option String
  court : Option String
  date_year : Option Nat
  is_published : Bool
  citations : List String
  summary : Option String
  holding : Option String
  full_text : Option String
  completeness_score : Option ℚ
  deriving Repr, DecidableEq

/-- Model `ValidationResult` (completeness is a float in the source). -/
structure ValidationResult where
  is_valid : Bool
  errors : List String
  warnings : List String
  completeness_score : ℚ
  validated_data : Option ValidatedCaseData
  deriving Repr, DecidableEq

/-- Substring test (Python `needle in haystack`). -/
def containsSub (hay needle : List Char) : Bool :=
  (List.range (hay.length + 1)).any
    (fun i => needle.isPrefixOf (hay.drop i))

/-- `ValidationPipeline._validate_business_rules`, warnings in source
order. -/
def validate_business_rules (case_ : ValidatedCaseData) : List String :=
  let w1 := match case_.date_year with
    | some y => if y < 1800 then ["Case date is unusually old: " ++ toString y]
      else []
    | none => []
  let w2 := if case_.case_name.length > 500 then
    ["Case name is unusually long (>500 chars)"] else []
  let w3 := if ¬ truthyStr case_.case_id ∧ ¬ truthyStr case_.docket_number
    then ["No case ID or docket number provided"] else []
  let w4 := if ¬ truthyStr case_.court then ["Court name is missing"] else []
  let w5 := match case_.date_year with
    | some _ => []
    | none => ["Decision date is missing"]
  let w6 := if case_.is_published = true ∧ case_.citations = [] then
    ["Published case has no citations"] else []
  let w7 := (case_.citations.filter (fun citation =>
      citation.length < 5 ∨ ¬ citation.data.any Char.isDigit)).map
    (fun citation => "Suspicious citation format: " ++ citation)
  w1 ++ w2 ++ w3 ++ w4 ++ w5 ++ w6 ++ w7

/-- Placeholder terms scanned for by `_check_suspicious_patterns`. -/
def placeholder_texts : List String :=
  ["lorem ipsum", "test", "example", "[placeholder]",
   "todo", "tbd", "n/a", "null", "none", "unknown"]

/-- `ValidationPipeline._check_suspicious_patterns`, warnings in source
order. -/
def check_suspicious_patterns (case_ : ValidatedCaseData) : List String :=
  let htmlFields : List (String × Option String) :=
    [("case_name", some case_.case_name), ("summary", case_.summary),
     ("holding", case_.holding)]
  let w1 := htmlFields.flatMap (fun fv =>
    match fv.2 with
    | some v =>
      if v ≠ "" ∧ '<' ∈ v.data ∧ '>' ∈ v.data then
        [fv.1 ++ " contains HTML tags"] else []
    | none => [])
  let w2 := match case_.full_text with
    | some ft =>
      if ft ≠ "" then
        let words := wordsOf ft.data
        if words.length > 50 then
          -- `unique_words < len(words) * 0.3` in exact arithmetic
          if 10 * words.eraseDups.length < 3 * words.length then
            ["Full text has unusually high word repetition"] else []
        else []
      else []
    | none => []
  let w3 := (([("case_name", some case_.case_name),
      ("summary", case_.summary), ("court", case_.court)] :
      List (String × Option String)).flatMap (fun fv =>
    match fv.2 with
    | some v =>
      if v ≠ "" then
        (placeholder_texts.filter (fun ph =>
          containsSub (pyLower v.data) ph.data)).map (fun ph =>
            fv.1 ++ " contains placeholder text: '" ++ ph ++ "'")
      else []
    | none => []))
  w1 ++ w2 ++ w3

/-- `ValidationPipeline.validate_case`: on schema success run both warning
passes (`is_valid` fails only in strict mode with warnings present); on
schema failure return the collected errors. -/
def validate_case (strict : Bool)
    (parsed : Except (List String) ValidatedCaseData) : ValidationResult :=
  match parsed with
  | .ok validated =>
    let warnings := validate_business_rules validated ++
      check_suspicious_patterns validated
    let is_valid := if strict = false then true
      else decide (warnings.length = 0)
    { is_valid := is_valid, errors := [], warnings := warnings,
      completeness_score := (validated.completeness_score).getD 0,
      validated_data := some validated }
  | .error errors =>
    { is_valid := false, errors := errors, warnings := [],
      completeness_score := 0, validated_data := none }

/-- C8: a schema-valid record that is published with no citations always
gets the `"Published case has no citations"` warning; the result is valid
under `strict=False` and invalid under `strict=True`. -/
theorem validate_case_published_no_citations (vcd : ValidatedCaseData)
    (hpub : vcd.is_published = true) (hcit : vcd.citations = []) :
    (∀ strict : Bool, "Published case has no citations" ∈
      (validate_case strict (.ok vcd)).warnings) ∧
    (validate_case false (.ok vcd)).is_valid = true ∧
    (validate_case true (.ok vcd)).is_valid = false := by
  have hmem : "Published case has no citations" ∈
      validate_business_rules vcd := by
    unfold validate_business_rules
    simp [hpub, hcit]
  have hwmem : ∀ strict : Bool, "Published case has no citations" ∈
      (validate_case strict (.ok vcd)).warnings := by
    intro strict
    unfold validate_case
    simp only [List.mem_append]
    exact Or.inl hmem
  refine ⟨hwmem, rfl, ?_⟩
  have hne : (validate_business_rules vcd ++
      check_suspicious_patterns vcd).length ≠ 0 := by
    intro hlen
    rw [List.length_eq_zero, List.append_eq_nil] at hlen
    rw [hlen.1] at hmem
    simp at hmem
  show (if (true : Bool) = false then true
    else decide ((validate_business_rules vcd ++
      check_suspicious_patterns vcd).length = 0)) = false
  rw [if_neg (by simp)]
  exact decide_eq_false hne

/-- Witness for C8 on a concrete published record with no citations. -/
theorem validate_case_published_no_citations_witness :
    ({ case_name := "Smith v. Jones", jurisdiction := "US",
       case_id := some "case-1", docket_number := none,
       court := some "Supreme Court", date_year := some 2020,
       is_published := true, citations := [], summary := none,
       holding := none, full_text := none, completeness_score := none } :
      ValidatedCaseData).is_published = true ∧
    ({ case_name := "Smith v. Jones", jurisdiction := "US",
       case_id := some "case-1", docket_number := none,
       court := some "Supreme Court", date_year := some 2020,
       is_published := true, citations := [], summary := none,
       holding := none, full_text := none, completeness_score := none } :
      ValidatedCaseData).citations = [] ∧
    ((∀ strict : Bool, "Published case has no citations" ∈
      (validate_case strict (.ok
        { case_name := "Smith v. Jones", jurisdiction := "US",
          case_id := some "case-1", docket_number := none,
          court := some "Supreme Court", date_year := some 2020,
          is_published := true, citations := [], summary := none,
          holding := none, full_text := none,
          completeness_score := none })).warnings) ∧
    (validate_case false (.ok
        { case_name := "Smith v. Jones", jurisdiction := "US",
          case_id := some "case-1", docket_number := none,
          court := some "Supreme Court", date_year := some 2020,
          is_published := true, citations := [], summary := none,
          holding := none, full_text := none,
          completeness_score := none })).is_valid = true ∧
    (validate_case true (.ok
        { case_name := "Smith v. Jones", jurisdiction := "US",
          case_id := some "case-1", docket_number := none,
          court := some "Supreme Court", date_year := some 2020,
          is_published := true, citations := [], summary := none,
          holding := none, full_text := none,
          completeness_score := none })).is_valid = false) :=
  ⟨rfl, rfl,
    validate_case_published_no_citations
      { case_name := "Smith v. Jones", jurisdiction := "US",
        case_id := some "case-1", docket_number := none,
        court := some "Supreme Court", date_year := some 2020,
        is_published := true, citations := [], summary := none,
        holding := none, full_text := none, completeness_score := none }
      rfl rfl⟩

end Kite
